import Mathlib

/-!
Verification of the validation-and-migration rule engine of the
claude-code-plugin-automations repository.

The Python scripts under `agent-builder/skills/*/scripts/` are embedded
shallowly: YAML/JSON scalar values become the inductive `Value`, a parsed
frontmatter mapping becomes an association list `Frontmatter`, and each
Python function that can raise (attribute errors on ill-typed values, the
unbound-name error in `migrate-hook.py`) returns `Except PyErr`.
String scanning (the `re` searches of the validators) is implemented over
the character list of the strings involved.
-/

namespace PluginAutomations

/-- Python exception values that the embedded scripts can raise. -/
inductive PyErr where
  | typeError (msg : String)
  | attributeError (msg : String)
  | nameError (name : String)
deriving DecidableEq, Repr

/-! ## Character and string utilities (model of the `re`/`str` operations) -/

/-- Whitespace characters recognised by Python `str.strip`, `str.split()` and
the regex class `\s` (ASCII fragment). -/
def isSpaceChar (c : Char) : Bool :=
  c = ' ' || c = '\t' || c = '\n' || c = '\r' || c = Char.ofNat 11 || c = Char.ofNat 12

/-- Word characters of the regex class `\w` (ASCII fragment). -/
def isWordChar (c : Char) : Bool :=
  c.isAlpha || c.isDigit || c = '_'

/-- Boolean list-prefix test over characters. -/
def prefixOfCL : List Char → List Char → Bool
  | [], _ => true
  | _ :: _, [] => false
  | a :: as, b :: bs => a = b && prefixOfCL as bs

/-- Python `needle in hay` on strings: substring occurrence test. -/
def hasSubstrCL (hay needle : List Char) : Bool :=
  match hay with
  | [] => needle.isEmpty
  | _ :: t => prefixOfCL needle hay || hasSubstrCL t needle

/-- Python `str.strip()`: drop leading and trailing whitespace. -/
def stripCL (l : List Char) : List Char :=
  ((l.dropWhile isSpaceChar).reverse.dropWhile isSpaceChar).reverse

/-- Split a character list at every occurrence of `sep`, keeping empty parts,
as Python `str.split(sep)` does. -/
def splitCharCL (sep : Char) : List Char → List (List Char)
  | [] => [[]]
  | c :: rest =>
      let r := splitCharCL sep rest
      if c = sep then [] :: r
      else
        match r with
        | h :: t => (c :: h) :: t
        | [] => [[c]]

/-- Python `str.split()` with no separator: split on whitespace runs,
dropping empty parts. -/
def splitWsCL : List Char → List (List Char)
  | [] => []
  | c :: rest =>
      if isSpaceChar c then splitWsCL rest
      else
        match splitWsCL rest with
        | [] => [[c]]
        | h :: t =>
            match rest with
            | [] => [[c]]
            | r :: _ => if isSpaceChar r then [c] :: h :: t else (c :: h) :: t

/-- Lowercasing of Python `str.lower` (ASCII fragment). -/
def lowerCL (l : List Char) : List Char := l.map Char.toLower

/-- Whether some suffix of the list satisfies the matcher `p`
(`re.search` positions). -/
def anySuffixCL (p : List Char → Bool) : List Char → Bool
  | [] => p []
  | c :: rest => p (c :: rest) || anySuffixCL p rest

/-- After at least one whitespace character, return the rest with all further
whitespace dropped (the deterministic reading of `\s+` before a
non-whitespace literal). -/
def dropSpaces1 : List Char → Option (List Char)
  | [] => Option.none
  | c :: rest =>
      if isSpaceChar c then some (rest.dropWhile isSpaceChar) else Option.none

/-- Matcher for `eval\s+\$` anchored at the head of the list. -/
def evalDollarAtCL (l : List Char) : Bool :=
  match l with
  | 'e' :: 'v' :: 'a' :: 'l' :: rest =>
      match dropSpaces1 rest with
      | some ('$' :: _) => true
      | _ => false
  | _ => false

/-- Search for the audit regex `eval\s+\$` in a body. -/
def hasEvalDollarCL (l : List Char) : Bool := anySuffixCL evalDollarAtCL l

/-- Matcher for `rm\s+-rf\s+\$` anchored at the head of the list. -/
def rmRfDollarAtCL (l : List Char) : Bool :=
  match l with
  | 'r' :: 'm' :: rest =>
      match dropSpaces1 rest with
      | some ('-' :: 'r' :: 'f' :: rest2) =>
          match dropSpaces1 rest2 with
          | some ('$' :: _) => true
          | _ => false
      | _ => false
  | _ => false

/-- Search for the audit regex `rm\s+-rf\s+\$`. -/
def hasRmRfDollarCL (l : List Char) : Bool := anySuffixCL rmRfDollarAtCL l

/-- The backquote character, written via its code point. -/
def backquoteChar : Char := Char.ofNat 96

/-- Tail of the injection regex: `&&`, `|`, `;` or a backquote. -/
def injectionTailCL (l : List Char) : Bool :=
  match l with
  | '&' :: '&' :: _ => true
  | '|' :: _ => true
  | ';' :: _ => true
  | c :: _ => c = backquoteChar
  | [] => false

/-- Matcher for the audit regex `\$\w+\s*(?:&&|\||;|` backquote `)` anchored at
the head of the list: a dollar, one or more word characters, optional
whitespace, then one of the four connective tokens. -/
def injectionAtCL (l : List Char) : Bool :=
  match l with
  | '$' :: c :: rest =>
      if isWordChar c then
        injectionTailCL (((c :: rest).dropWhile isWordChar).dropWhile isSpaceChar)
      else false
  | _ => false

/-- Search for the command-injection audit regex. -/
def hasInjectionCL (l : List Char) : Bool := anySuffixCL injectionAtCL l

/-- Search for the regex `\$\d+` (a positional-argument placeholder). -/
def hasDollarDigitCL : List Char → Bool
  | [] => false
  | '$' :: c :: rest => c.isDigit || hasDollarDigitCL (c :: rest)
  | _ :: rest => hasDollarDigitCL rest

/-- Anchored match of the regex `^\d+\.\d+\.\d+` used for the skill version
field. -/
def semverStartCL (l : List Char) : Bool :=
  match l with
  | c :: rest =>
      if c.isDigit then
        match (rest.dropWhile Char.isDigit) with
        | '.' :: r2 =>
            match r2 with
            | d2 :: r3 =>
                if d2.isDigit then
                  match (r3.dropWhile Char.isDigit) with
                  | '.' :: r4 =>
                      match r4 with
                      | d3 :: _ => d3.isDigit
                      | [] => false
                  | _ => false
                else false
            | [] => false
        | _ => false
      else false
  | [] => false

/-- Build a string back from a character list. -/
def ofChars (l : List Char) : String := String.mk l

/-- Interleave a separator between the parts and concatenate. -/
def joinSep (sep : String) : List String → String
  | [] => ""
  | [s] => s
  | s :: rest => s ++ sep ++ joinSep sep rest

/-- String prefix test, via the character lists. -/
def strStarts (s p : String) : Bool := prefixOfCL p.data s.data

/-- String substring test, via the character lists. -/
def strHasSub (s sub : String) : Bool := hasSubstrCL s.data sub.data

/-! ## Python scalar values -/

/-- Scalar and list values as decoded by `yaml.safe_load` / `json.loads` in
the scripts (dictionaries only occur at top level in the embedded code
paths, so nested mappings are not needed). -/
inductive Value where
  | str (s : String)
  | int (n : Int)
  | bool (b : Bool)
  | list (l : List Value)
  | none

/-- The single-quote character used by Python `repr` of strings. -/
def sqChar : Char := Char.ofNat 39

mutual

/-- Python `str()` of a value. -/
def pyStr : Value → String
  | .str s => s
  | .int n => toString n
  | .bool b => if b then "True" else "False"
  | .list l => "[" ++ pyReprList l ++ "]"
  | .none => "None"

/-- Python `repr` of the elements of a list, comma separated. -/
def pyReprList : List Value → String
  | [] => ""
  | [v] => pyRepr v
  | v :: rest => pyRepr v ++ ", " ++ pyReprList rest

/-- Python `repr()` of a value (strings get quoted). -/
def pyRepr : Value → String
  | .str s => sqChar.toString ++ s ++ sqChar.toString
  | .int n => toString n
  | .bool b => if b then "True" else "False"
  | .list l => "[" ++ pyReprList l ++ "]"
  | .none => "None"

end

/-- Python truthiness of a value. -/
def vTruthy : Value → Bool
  | .str s => !s.data.isEmpty
  | .int n => n != 0
  | .bool b => b
  | .list l => !l.isEmpty
  | .none => false

/-- Python equality of a value against a string literal. -/
def vEqStr (v : Value) (s : String) : Bool :=
  match v with
  | .str t => t = s
  | _ => false

/-- Python `len()`; raises `TypeError` on values without a length. -/
def pyLen : Value → Except PyErr Nat
  | .str s => .ok s.data.length
  | .list l => .ok l.length
  | _ => .error (.typeError "object has no len")

/-- Python `v.startswith(p)`; raises `AttributeError` on non-strings. -/
def vStartsWith (v : Value) (p : String) : Except PyErr Bool :=
  match v with
  | .str s => .ok (prefixOfCL p.data s.data)
  | _ => .error (.attributeError "startswith")

/-- Python `needle in v` for a string needle; containment on strings and
lists, `TypeError` otherwise. -/
def pyInStr (needle : String) : Value → Except PyErr Bool
  | .str s => .ok (hasSubstrCL s.data needle.data)
  | .list l => .ok (l.any fun x => vEqStr x needle)
  | _ => .error (.typeError "argument is not iterable")

/-- Python `v.lower()`; raises `AttributeError` on non-strings. -/
def pyLower : Value → Except PyErr String
  | .str s => .ok (ofChars (lowerCL s.data))
  | _ => .error (.attributeError "lower")

/-! ## Frontmatter mappings (Python dictionaries) -/

/-- A parsed frontmatter block: an ordered key/value mapping. -/
abbrev Frontmatter := List (String × Value)

/-- Dictionary lookup (`fm[k]` / `fm.get(k)`). -/
def fmGet : Frontmatter → String → Option Value
  | [], _ => Option.none
  | (k', v) :: rest, k => if k' = k then some v else fmGet rest k

/-- Dictionary membership (`k in fm`). -/
def fmHas (fm : Frontmatter) (k : String) : Bool := (fmGet fm k).isSome

/-- Dictionary assignment (`fm[k] = v`): update in place, else append. -/
def fmSet : Frontmatter → String → Value → Frontmatter
  | [], k, v => [(k, v)]
  | (k', v') :: rest, k, v =>
      if k' = k then (k, v) :: rest else (k', v') :: fmSet rest k v

/-- Dictionary deletion (`del fm[k]`). -/
def fmDel : Frontmatter → String → Frontmatter
  | [], _ => []
  | (k', v) :: rest, k =>
      if k' = k then fmDel rest k else (k', v) :: fmDel rest k

/-! ## Command migrations
(`agent-builder/skills/building-commands/scripts/migrate-command.py`) -/

/-- The short-alias table of `migrate_short_alias_to_version_alias`
(`alias_map` combined with the `model in alias_map` dictionary lookup). -/
def aliasLookup : Value → Option String
  | .str s =>
      if s = "haiku" then some "claude-haiku-4-5"
      else if s = "sonnet" then some "claude-sonnet-4-5"
      else if s = "opus" then some "claude-opus-4-5"
      else Option.none
  | _ => Option.none

/-- Migration 1 of `migrate-command.py`: rewrite the short model aliases
`haiku`/`sonnet`/`opus` to the version aliases and delete `model: inherit`. -/
def migrate_short_alias_to_version_alias (fm : Frontmatter) :
    Frontmatter × List String :=
  match fmGet fm "model" with
  | Option.none => (fm, [])
  | some model =>
      match aliasLookup model with
      | some newValue =>
          (fmSet fm "model" (.str newValue),
           ["Migrated model: " ++ pyStr model ++ " to " ++ newValue])
      | Option.none =>
          match model with
          | .str s =>
              if s = "inherit" then
                (fmDel fm "model",
                 ["Removed model: inherit (use field omission instead)"])
              else (fm, [])
          | _ => (fm, [])

/-- Migration 2 of `migrate-command.py`: normalise `argument-hint` — a YAML
list is joined into one string, and a value whose string form does not start
with an opening bracket is wrapped in brackets. -/
def migrate_argument_hint_format (fm : Frontmatter) :
    Frontmatter × List String :=
  match fmGet fm "argument-hint" with
  | Option.none => (fm, [])
  | some hint0 =>
      let step1 : Frontmatter × List String × Value :=
        match hint0 with
        | .list l =>
            let hintStr := joinSep " " (l.map pyStr)
            (fmSet fm "argument-hint" (.str hintStr),
             ["Converted argument-hint from list to string: " ++ hintStr],
             .str hintStr)
        | v => (fm, [], v)
      let (fm1, ch1, hint) := step1
      if strStarts (pyStr hint) "[" then (fm1, ch1)
      else
        (fmSet fm1 "argument-hint" (.str ("[" ++ pyStr hint ++ "]")),
         ch1 ++ ["Added brackets to argument-hint: " ++ pyStr hint])

/-- Migration 3 of `migrate-command.py`: rename `tools` to `allowed-tools`,
but only when `allowed-tools` is not already present. -/
def migrate_tools_field_name (fm : Frontmatter) : Frontmatter × List String :=
  match fmGet fm "tools", fmHas fm "allowed-tools" with
  | some toolsVal, false =>
      (fmDel (fmSet fm "allowed-tools" toolsVal) "tools",
       ["Renamed field: tools to allowed-tools"])
  | _, _ => (fm, [])

/-- The `apply_all_migrations` pipeline of `migrate-command.py`: the three
migrations in source order, accumulating the change descriptions. -/
def apply_all_migrations (fm : Frontmatter) : Frontmatter × List String :=
  let r1 := migrate_short_alias_to_version_alias fm
  let r2 := migrate_argument_hint_format r1.1
  let r3 := migrate_tools_field_name r2.1
  (r3.1, r1.2 ++ r2.2 ++ r3.2)

/-! Fixed-point characterisation of the three command migrations. -/

/-- The `model` entry is in migrated form: absent, or a value that is neither
a short alias nor the literal string `inherit`. -/
def modelFixed : Option Value → Prop
  | Option.none => True
  | some v => aliasLookup v = Option.none ∧ ∀ s : String, v = .str s → s ≠ "inherit"

/-- The `argument-hint` entry is in migrated form: absent, or a non-list
value whose string form starts with an opening bracket. -/
def hintFixed : Option Value → Prop
  | Option.none => True
  | some v => (∀ l : List Value, v ≠ .list l) ∧ strStarts (pyStr v) "[" = true

/-- The `tools` / `allowed-tools` pair is in migrated form. -/
def toolsFixed (fm : Frontmatter) : Prop :=
  fmGet fm "tools" = Option.none ∨ fmHas fm "allowed-tools" = true

/-! ## Hook configurations
(`agent-builder/skills/building-hooks/scripts/migrate-hook.py`) -/

/-- The two tool events (`TOOL_EVENTS` in `migrate-hook.py`). -/
def TOOL_EVENTS : List String := ["PreToolUse", "PostToolUse"]

/-- The six lifecycle events (`LIFECYCLE_EVENTS` in `migrate-hook.py`). -/
def LIFECYCLE_EVENTS : List String :=
  ["UserPromptSubmit", "Stop", "SessionStart", "Notification", "SubagentStop", "PreCompact"]

/-- Boolean list membership for event names. -/
def elemStr (s : String) : List String → Bool
  | [] => false
  | x :: rest => s == x || elemStr s rest

/-- One entry of a hook group's inner `hooks` array: the `type`, `command`
and `prompt` keys, each possibly absent. -/
structure HookItem where
  type? : Option String
  command? : Option String
  prompt? : Option String
deriving DecidableEq, Repr

/-- One hook group: an optional `matcher` value and the optional inner
`hooks` array. -/
structure HookGroup where
  matcher? : Option Value
  items? : Option (List HookItem)

/-- A hooks configuration: the optional top-level `hooks` mapping from event
names to hook-group arrays. -/
structure HooksConfig where
  hooks? : Option (List (String × List HookGroup))

/-- Indexed traversal of a group list with a fallible per-group rewrite,
accumulating change descriptions, as the `for i, hook_config in
enumerate(event_hooks)` loops do. -/
def mapGroupsE (f : Nat → HookGroup → Except PyErr (HookGroup × List String)) :
    Nat → List HookGroup → Except PyErr (List HookGroup × List String)
  | _, [] => .ok ([], [])
  | i, g :: gs => do
      let (g2, c) ← f i g
      let (gs2, cs) ← mapGroupsE f (i + 1) gs
      .ok (g2 :: gs2, c ++ cs)

/-- Traversal of the event mapping with a fallible per-event rewrite. -/
def mapEventsE
    (f : String → List HookGroup → Except PyErr (List HookGroup × List String)) :
    List (String × List HookGroup) →
      Except PyErr (List (String × List HookGroup) × List String)
  | [] => .ok ([], [])
  | (ev, gs) :: rest => do
      let (gs2, c) ← f ev gs
      let (rest2, cs) ← mapEventsE f rest
      .ok ((ev, gs2) :: rest2, c ++ cs)

/-- Indexed traversal of a group list with a total per-group rewrite. -/
def mapGroupsP (f : Nat → HookGroup → HookGroup × List String) :
    Nat → List HookGroup → List HookGroup × List String
  | _, [] => ([], [])
  | i, g :: gs =>
      let (g2, c) := f i g
      let (gs2, cs) := mapGroupsP f (i + 1) gs
      (g2 :: gs2, c ++ cs)

/-- Traversal of the event mapping with a total per-event rewrite. -/
def mapEventsP (f : String → List HookGroup → List HookGroup × List String) :
    List (String × List HookGroup) → List (String × List HookGroup) × List String
  | [] => ([], [])
  | (ev, gs) :: rest =>
      let (gs2, c) := f ev gs
      let (rest2, cs) := mapEventsP f rest
      ((ev, gs2) :: rest2, c ++ cs)

/-- Change message for a removed empty matcher. -/
def removedMsg (ev : String) (i : Nat) : String :=
  "Removed empty matcher from " ++ ev ++ " hook #" ++ toString (i + 1)

/-- Body of the lifecycle-matcher warning. -/
def warnBody (ev : String) (i : Nat) (s : String) : String :=
  ev ++ " hook #" ++ toString (i + 1) ++ " has matcher " ++ s ++
    " (lifecycle events should not have matchers)"

/-- Warning message for a kept non-empty lifecycle matcher. -/
def warnMsg (ev : String) (i : Nat) (s : String) : String :=
  "WARNING: " ++ warnBody ev i s

/-- Loop body of `migrate_remove_empty_matchers` for one lifecycle hook
group: a falsy or blank matcher is deleted, a non-blank string matcher is
kept with a warning, and calling `.strip()` on a truthy non-string matcher
raises `AttributeError`. -/
def stripLifecycleGroup (ev : String) (i : Nat) (g : HookGroup) :
    Except PyErr (HookGroup × List String) :=
  match g.matcher? with
  | Option.none => .ok (g, [])
  | some m =>
      if vTruthy m then
        match m with
        | .str s =>
            if (stripCL s.data).isEmpty then
              .ok ({ g with matcher? := Option.none }, [removedMsg ev i])
            else
              .ok (g, [warnMsg ev i s])
        | _ => .error (.attributeError "strip")
      else
        .ok ({ g with matcher? := Option.none }, [removedMsg ev i])

/-- Per-event body of `migrate_remove_empty_matchers`: only lifecycle events
are rewritten. -/
def removeEventStep (ev : String) (gs : List HookGroup) :
    Except PyErr (List HookGroup × List String) :=
  if elemStr ev LIFECYCLE_EVENTS then mapGroupsE (stripLifecycleGroup ev) 0 gs
  else .ok (gs, [])

/-- Embedding of `migrate_remove_empty_matchers` from `migrate-hook.py`. -/
def migrate_remove_empty_matchers (cfg : HooksConfig) :
    Except PyErr (HooksConfig × List String) :=
  match cfg.hooks? with
  | Option.none => .ok (cfg, [])
  | some evs => do
      let (evs2, cs) ← mapEventsE removeEventStep evs
      .ok (⟨some evs2⟩, cs)

/-- Change message for an added default matcher. -/
def addedMsg (ev : String) (i : Nat) : String :=
  "Added default matcher * to " ++ ev ++ " hook #" ++ toString (i + 1)

/-- Loop body of `migrate_add_missing_matchers` for one tool hook group:
a missing or falsy matcher is replaced by the wildcard. -/
def fillToolGroup (ev : String) (i : Nat) (g : HookGroup) :
    HookGroup × List String :=
  match g.matcher? with
  | Option.none => ({ g with matcher? := some (.str "*") }, [addedMsg ev i])
  | some m =>
      if vTruthy m then (g, [])
      else ({ g with matcher? := some (.str "*") }, [addedMsg ev i])

/-- Per-event body of `migrate_add_missing_matchers`: only tool events are
rewritten. -/
def addEventStep (ev : String) (gs : List HookGroup) :
    List HookGroup × List String :=
  if elemStr ev TOOL_EVENTS then mapGroupsP (fillToolGroup ev) 0 gs
  else (gs, [])

/-- Embedding of `migrate_add_missing_matchers` from `migrate-hook.py`. -/
def migrate_add_missing_matchers (cfg : HooksConfig) :
    HooksConfig × List String :=
  match cfg.hooks? with
  | Option.none => (cfg, [])
  | some evs =>
      let (evs2, cs) := mapEventsP addEventStep evs
      (⟨some evs2⟩, cs)

/-- The two matcher migrations of `migrate-hook.py` in their `main` order:
remove empty lifecycle matchers, then add missing tool-event matchers. -/
def hook_matcher_migrations (cfg : HooksConfig) :
    Except PyErr (HooksConfig × List String) := do
  let (c1, l1) ← migrate_remove_empty_matchers cfg
  let (c2, l2) := migrate_add_missing_matchers c1
  .ok (c2, l1 ++ l2)

/-! ### Hook item type validation (`migrate_validate_hook_types`) -/

/-- Positional tag `ev hook #i+1, item #j+1` used in the type-fix messages. -/
def itemTag (ev : String) (i j : Nat) : String :=
  ev ++ " hook #" ++ toString (i + 1) ++ ", item #" ++ toString (j + 1)

/-- Change message for a type inferred as `command`. -/
def fixedCmdMsg (ev : String) (i j : Nat) : String :=
  "Fixed type to command for " ++ itemTag ev i j

/-- Change message for a type inferred as `prompt`. -/
def fixedPromptMsg (ev : String) (i j : Nat) : String :=
  "Fixed type to prompt for " ++ itemTag ev i j

/-- Error message for an invalid type with no payload field. -/
def invalidTypeMsg (ev : String) (i j : Nat) (t : String) : String :=
  "ERROR: " ++ itemTag ev i j ++ ": Invalid type " ++ t ++ " with no command or prompt"

/-- Error message for a command item with no `command` field. -/
def missingCmdMsg (ev : String) (i j : Nat) : String :=
  "ERROR: " ++ itemTag ev i j ++ ": Missing command field"

/-- Error message for a prompt item with no `prompt` field. -/
def missingPromptMsg (ev : String) (i j : Nat) : String :=
  "ERROR: " ++ itemTag ev i j ++ ": Missing prompt field"

/-- Loop body of `migrate_validate_hook_types` for one hook item: a type
outside `command`/`prompt` is repaired from whichever payload key is present
(`command` tried first), an item with neither payload key is left unchanged
with an `ERROR` entry, and the required-field checks run against the
original type value. -/
def fixHookItem (ev : String) (i j : Nat) (it : HookItem) : HookItem × List String :=
  let t := it.type?.getD ""
  let (it1, c1) :=
    if t = "command" || t = "prompt" then (it, ([] : List String))
    else if it.command?.isSome then
      ({ it with type? := some "command" }, [fixedCmdMsg ev i j])
    else if it.prompt?.isSome then
      ({ it with type? := some "prompt" }, [fixedPromptMsg ev i j])
    else (it, [invalidTypeMsg ev i j t])
  let c2 := if t = "command" && it.command?.isNone then [missingCmdMsg ev i j] else []
  let c3 := if t = "prompt" && it.prompt?.isNone then [missingPromptMsg ev i j] else []
  (it1, c1 ++ c2 ++ c3)

/-- Indexed traversal of a hook-item list with a total per-item rewrite. -/
def mapItemsP (f : Nat → HookItem → HookItem × List String) :
    Nat → List HookItem → List HookItem × List String
  | _, [] => ([], [])
  | j, it :: rest =>
      let (it2, c) := f j it
      let (rest2, cs) := mapItemsP f (j + 1) rest
      (it2 :: rest2, c ++ cs)

/-- Per-group body of `migrate_validate_hook_types`: groups without an inner
`hooks` array are skipped. -/
def typesGroupStep (ev : String) (i : Nat) (g : HookGroup) : HookGroup × List String :=
  match g.items? with
  | Option.none => (g, [])
  | some its =>
      let (its2, cs) := mapItemsP (fixHookItem ev i) 0 its
      ({ g with items? := some its2 }, cs)

/-- Embedding of `migrate_validate_hook_types` from `migrate-hook.py`. -/
def migrate_validate_hook_types (cfg : HooksConfig) : HooksConfig × List String :=
  match cfg.hooks? with
  | Option.none => (cfg, [])
  | some evs =>
      let (evs2, cs) := mapEventsP (fun ev gs => mapGroupsP (typesGroupStep ev) 0 gs) evs
      (⟨some evs2⟩, cs)

/-! ### Script path normalisation (`migrate_normalize_script_paths`) -/

/-- The module-level string constants defined in `migrate-hook.py` (the ANSI
colour codes); the name `CLAUDE_PLUGIN_ROOT` is not among them. -/
def moduleGlobals : List (String × String) :=
  [("GREEN", "\x1b[92m"), ("YELLOW", "\x1b[93m"), ("RED", "\x1b[91m"),
   ("BLUE", "\x1b[94m"), ("CYAN", "\x1b[96m"), ("RESET", "\x1b[0m"),
   ("BOLD", "\x1b[1m")]

/-- Python name lookup used by f-string interpolation: an unbound name
raises `NameError`. -/
def lookupGlobal (n : String) : Except PyErr String :=
  match moduleGlobals.find? (fun p => p.1 == n) with
  | some p => .ok p.2
  | Option.none => .error (.nameError n)

/-- The recommendation f-string of `migrate_normalize_script_paths`: its
placeholder evaluates the name `CLAUDE_PLUGIN_ROOT`, which the module never
defines. -/
def recommendMsg (ev : String) (i j : Nat) (scriptPath : String) :
    Except PyErr String := do
  let root ← lookupGlobal "CLAUDE_PLUGIN_ROOT"
  .ok ("RECOMMEND: " ++ itemTag ev i j ++ ": Use $" ++ root ++ " for " ++ scriptPath)

/-- Loop body of `migrate_normalize_script_paths` for one hook item: a
command item invoking `bash`/`sh` on a path that is neither absolute nor a
variable reference produces the (failing) recommendation. -/
def pathItemStep (ev : String) (i j : Nat) (it : HookItem) :
    Except PyErr (List String) :=
  if it.type? = some "command" then
    let command := it.command?.getD ""
    if strStarts command "bash " || strStarts command "sh " then
      match splitWsCL command.data with
      | _ :: p1 :: _ =>
          let scriptPath := ofChars p1
          if !strStarts scriptPath "/" && !strStarts scriptPath "$\x7b" then do
            let msg ← recommendMsg ev i j scriptPath
            .ok [msg]
          else .ok []
      | _ => .ok []
    else .ok []
  else .ok []

/-- Indexed traversal of a hook-item list collecting recommendations. -/
def mapItemsE (f : Nat → HookItem → Except PyErr (List String)) :
    Nat → List HookItem → Except PyErr (List String)
  | _, [] => .ok []
  | j, it :: rest => do
      let c ← f j it
      let cs ← mapItemsE f (j + 1) rest
      .ok (c ++ cs)

/-- Per-group body of `migrate_normalize_script_paths`. -/
def pathGroupStep (ev : String) (i : Nat) (g : HookGroup) :
    Except PyErr (List String) :=
  match g.items? with
  | Option.none => .ok []
  | some its => mapItemsE (pathItemStep ev i) 0 its

/-- Indexed traversal of a group list collecting recommendations. -/
def mapGroupsCollectE (f : Nat → HookGroup → Except PyErr (List String)) :
    Nat → List HookGroup → Except PyErr (List String)
  | _, [] => .ok []
  | i, g :: gs => do
      let c ← f i g
      let cs ← mapGroupsCollectE f (i + 1) gs
      .ok (c ++ cs)

/-- Traversal of the event mapping collecting recommendations. -/
def mapEventsCollectE
    (f : String → List HookGroup → Except PyErr (List String)) :
    List (String × List HookGroup) → Except PyErr (List String)
  | [] => .ok []
  | (ev, gs) :: rest => do
      let c ← f ev gs
      let cs ← mapEventsCollectE f rest
      .ok (c ++ cs)

/-- Embedding of `migrate_normalize_script_paths` from `migrate-hook.py`: the configuration
is never mutated; only recommendation strings are (attempted to be) built. -/
def migrate_normalize_script_paths (cfg : HooksConfig) :
    Except PyErr (HooksConfig × List String) :=
  match cfg.hooks? with
  | Option.none => .ok (cfg, [])
  | some evs => do
      let recs ← mapEventsCollectE
          (fun ev gs => mapGroupsCollectE (pathGroupStep ev) 0 gs) evs
      .ok (cfg, recs)

/-- The guard of the recommendation, as one predicate on a hook item: a
command-typed item whose command runs `bash `/`sh ` on a script path that
starts with neither a slash nor a variable reference. -/
def itemNeedsPathFix (it : HookItem) : Bool :=
  it.type? = some "command" &&
    (let command := it.command?.getD ""
     (strStarts command "bash " || strStarts command "sh ") &&
       match splitWsCL command.data with
       | _ :: p1 :: _ =>
           !strStarts (ofChars p1) "/" && !strStarts (ofChars p1) "$\x7b"
       | _ => false)

/-- Whether any hook item of the configuration triggers the recommendation. -/
def cfgHasRelPath (cfg : HooksConfig) : Bool :=
  match cfg.hooks? with
  | Option.none => false
  | some evs =>
      evs.any fun e =>
        e.2.any fun g =>
          match g.items? with
          | Option.none => false
          | some its => its.any itemNeedsPathFix

/-- A change list consisting only of lifecycle-matcher warnings. -/
def allWarn (l : List String) : Prop := ∀ x ∈ l, ∃ r, x = "WARNING: " ++ r

/-! ## Skill migration
(`agent-builder/skills/building-skills/scripts/migrate-skill.py`) -/

/-- Embedding of `migrate_remove_model_field` from `migrate-skill.py`: the `model` key is
deleted whenever present, recording a critical (automatic) change. -/
def migrate_remove_model_field (fm : Frontmatter) : Frontmatter × List String :=
  match fmGet fm "model" with
  | Option.none => (fm, [])
  | some old =>
      (fmDel fm "model",
       ["CRITICAL: Removed model field with value " ++ pyStr old ++
        " (skills do not support model specification)"])

/-! ## Command audit
(`agent-builder/skills/building-commands/scripts/audit-commands.py`) -/

/-- Outcome of `parse_command` / `parse_skill`: either a parse-error message
(missing frontmatter delimiters, undecodable YAML, unreadable file) or the
decoded frontmatter mapping plus the body text. -/
inductive ParseOutcome where
  | failure (msg : String)
  | success (fm : Frontmatter) (body : String)

/-- The result quadruple of `validate_command` / `validate_skill`. -/
structure ValReport where
  status : String
  critical_errors : List String
  warnings : List String
  recommendations : List String
deriving DecidableEq, Repr

/-- Character class of the identity regex `^[a-z0-9-]+$`. -/
def isLowerNumDash (c : Char) : Bool :=
  (97 ≤ c.toNat && c.toNat ≤ 122) || (48 ≤ c.toNat && c.toNat ≤ 57) || c = '-'

/-- Full-match test for the identity regex `^[a-z0-9-]+$`. -/
def namePatOk (s : String) : Bool :=
  !s.data.isEmpty && s.data.all isLowerNumDash

/-- The verb allow-list of `audit-commands.py`. -/
def common_verbs : List String :=
  ["add", "build", "check", "clean", "commit", "create", "delete", "deploy",
   "generate", "get", "install", "list", "make", "new", "push", "remove",
   "review", "run", "search", "show", "test", "update", "validate"]

/-- The tool allow-list shared by the audit scripts. -/
def valid_tools : List String :=
  ["Read", "Write", "Edit", "Grep", "Glob", "Bash",
   "WebFetch", "WebSearch", "NotebookEdit", "Task",
   "TodoWrite", "BashOutput", "KillShell"]

/-- The four rejected short model aliases. -/
def shortAliases : List String := ["haiku", "sonnet", "opus", "inherit"]

/-- Filename checks of `validate_command` (critical findings). -/
def namePartCmd (stem : String) : List String :=
  (if namePatOk stem then [] else ["Invalid filename: must be lowercase-hyphens only"]) ++
  (if stem.data.contains '_' then ["Underscores not allowed in filename"] else []) ++
  (if stem.data.length > 64 then ["Filename exceeds 64 characters"] else [])

/-- Verb-first naming recommendation of `validate_command`. -/
def verbRecCmd (stem : String) : List String :=
  if common_verbs.any (fun v => strStarts stem v) then []
  else ["Consider verb-first naming"]

/-- Description checks of `validate_command`: presence is critical, length
bounds are warnings; `len` of an unsized value raises. -/
def descPartCmd (fm : Frontmatter) : Except PyErr (List String × List String) :=
  match fmGet fm "description" with
  | Option.none => .ok (["Missing required description field"], [])
  | some d => do
      let n ← pyLen d
      .ok ([],
        if n < 10 then ["Description too short (under 10 chars)"]
        else if n > 200 then ["Description too long (over 200 chars)"]
        else [])

/-- Model checks of `validate_command`: a short alias is critical; otherwise
`model.startswith` runs (raising on non-strings) and a non-`claude-` value
is a warning. -/
def modelPartCmd (fm : Frontmatter) : Except PyErr (List String × List String) :=
  match fmGet fm "model" with
  | Option.none => .ok ([], [])
  | some m =>
      if shortAliases.any (fun a => vEqStr m a) then
        .ok (["CRITICAL: Commands cannot use short alias " ++ pyStr m], [])
      else do
        let b ← vStartsWith m "claude-"
        .ok ([], if b then [] else ["Model does not start with claude-, may cause errors"])

/-- Tool checks of `validate_command`: only string-valued `allowed-tools`
are inspected; unknown tools warn, and Bash access without the literal
substrings `validation`/`sanitize` in the lowercased body is critical. -/
def toolsPartCmd (fm : Frontmatter) (body : String) : List String × List String :=
  match fmGet fm "allowed-tools" with
  | some (.str tools) =>
      let tool_list := (splitCharCL ',' tools.data).map (fun w => ofChars (stripCL w))
      let unk := tool_list.filterMap (fun t =>
        if elemStr t valid_tools then Option.none else some ("Unknown tool: " ++ t))
      let ce :=
        if strHasSub tools "Bash" && !body.data.isEmpty &&
            !hasSubstrCL (lowerCL body.data) "validation".data &&
            !hasSubstrCL (lowerCL body.data) "sanitize".data then
          ["Has Bash access without input validation documentation"]
        else []
      (ce, unk)
  | _ => ([], [])

/-- Argument and security checks of `validate_command`: placeholder usage
produces warnings/recommendations, and when `Bash` occurs in the
`allowed-tools` value the three dangerous-pattern regexes are searched in
the whole body, each match being critical. -/
def argsPartCmd (fm : Frontmatter) (body : String) :
    Except PyErr (List String × List String × List String) :=
  if body.data.isEmpty then .ok ([], [], [])
  else do
    let usesPos := hasDollarDigitCL body.data
    let usesAll := strHasSub body "$ARGUMENTS"
    let w :=
      if (usesPos || usesAll) && !(fmHas fm "argument-hint") then
        ["Uses arguments but missing argument-hint field"]
      else []
    let r :=
      if (usesPos || usesAll) && !strHasSub body "## Arguments" &&
          !strHasSub body "## Parameters" then
        ["Add an Arguments section to document parameters"]
      else []
    let bashIn ← pyInStr "Bash" ((fmGet fm "allowed-tools").getD (.str ""))
    let ce :=
      if bashIn then
        (if hasInjectionCL body.data then
          ["SECURITY: Potential command injection risk"] else []) ++
        (if hasRmRfDollarCL body.data then
          ["SECURITY: Dangerous rm -rf with variable"] else []) ++
        (if hasEvalDollarCL body.data then
          ["SECURITY: Using eval with arguments is dangerous"] else [])
      else []
    .ok (ce, w, r)

/-- Status aggregation at the end of `validate_command` / `validate_skill`. -/
def statusOf (ce w : List String) : String :=
  if !ce.isEmpty then "errors" else if !w.isEmpty then "warnings" else "valid"

/-- Embedding of `validate_command` from `audit-commands.py`: a parse failure
short-circuits into a `parse_error` report with that single finding; a
parsed file runs the checks in source order, propagating any Python
exception they raise. -/
def validate_command (stem : String) (p : ParseOutcome) : Except PyErr ValReport :=
  match p with
  | .failure e => .ok ⟨"parse_error", [e], [], []⟩
  | .success fm body => do
      let dres ← descPartCmd fm
      let mres ← modelPartCmd fm
      let tres := toolsPartCmd fm body
      let ares ← argsPartCmd fm body
      let ce := namePartCmd stem ++ dres.1 ++ mres.1 ++ tres.1 ++ ares.1
      let w := dres.2 ++ mres.2 ++ tres.2 ++ ares.2.1
      let recs := verbRecCmd stem ++ ares.2.2
      .ok ⟨statusOf ce w, ce, w, recs⟩

/-- The `main` loop of `audit-commands.py` over a batch of files: each file
is validated in turn with no exception handling around the call. -/
def audit_batch : List (String × ParseOutcome) → Except PyErr (List ValReport)
  | [] => .ok []
  | (stem, p) :: rest => do
      let r ← validate_command stem p
      let rs ← audit_batch rest
      .ok (r :: rs)

/-! ## Skill audit
(`agent-builder/skills/building-skills/scripts/audit-skills.py`) -/

/-- A skill directory as seen by `validate_skill`: its name, the parse
outcome of its `SKILL.md`, and the filesystem facts the checks consult. -/
structure SkillDir where
  name : String
  parse : ParseOutcome
  has_scripts : Bool
  has_references : Bool
  has_assets : Bool
  nonexec_py : List String
  nonexec_sh : List String

/-- String suffix test, via the character lists. -/
def strEnds (s p : String) : Bool := prefixOfCL p.data.reverse s.data.reverse

/-- Directory-name checks of `validate_skill` (critical findings). -/
def namePartSkill (name : String) : List String :=
  (if namePatOk name then [] else ["Invalid directory name: must be lowercase-hyphens only"]) ++
  (if name.data.contains '_' then ["Underscores not allowed in directory name"] else []) ++
  (if name.data.length > 64 then ["Directory name exceeds 64 characters"] else [])

/-- Gerund-form recommendation of `validate_skill`. -/
def gerundRecSkill (name : String) : List String :=
  if strEnds name "ing" ||
      ["-ing-", "analyzing", "building", "creating"].any (fun w => strHasSub name w) then []
  else ["Consider gerund form for skill names"]

/-- Name-field checks of `validate_skill`. -/
def nameFieldPartSkill (fm : Frontmatter) (name : String) :
    List String × List String :=
  match fmGet fm "name" with
  | Option.none => (["Missing required name field"], [])
  | some v =>
      ([], if vEqStr v name then [] else ["Name does not match directory " ++ name])

/-- The auto-invocation trigger phrases of `validate_skill`. -/
def trigger_keywords : List String :=
  ["use when", "when", "auto-invokes when", "whenever", "automatically activated"]

/-- Description checks of `validate_skill`: short descriptions warn, over
1024 characters is critical, and a description without a trigger phrase
(searched in its lowercase form) warns. -/
def descPartSkill (fm : Frontmatter) : Except PyErr (List String × List String) :=
  match fmGet fm "description" with
  | Option.none => .ok (["Missing required description field"], [])
  | some d => do
      let n ← pyLen d
      let lenCe :=
        if n < 30 then []
        else if n > 1024 then ["Description exceeds 1024 character limit"]
        else []
      let lenW := if n < 30 then ["Description too short for skills (under 30 chars)"] else []
      let low ← pyLower d
      let trigW :=
        if trigger_keywords.any (fun k => strHasSub low k) then []
        else ["Description should clearly state WHEN Claude should auto-invoke"]
      .ok (lenCe, lenW ++ trigW)

/-- Model check of `validate_skill`: the mere presence of the key is a
critical finding, whatever its value. -/
def modelPartSkill (fm : Frontmatter) (name : String) : List String :=
  if fmHas fm "model" then
    ["CRITICAL: Skills cannot have model field. Only agents support model specification. Run: /agent-builder:skills:migrate " ++ name ++ " --apply"]
  else []

/-- Version check of `validate_skill`: `str(version)` must start with a
semantic-version triple. -/
def versionPartSkill (fm : Frontmatter) : List String :=
  match fmGet fm "version" with
  | Option.none => []
  | some v => if semverStartCL (pyStr v).data then [] else ["Use semantic versioning"]

/-- Tool checks of `validate_skill` (warnings only). -/
def toolsPartSkill (fm : Frontmatter) (body : String) : List String :=
  match fmGet fm "allowed-tools" with
  | some (.str tools) =>
      let tool_list := (splitCharCL ',' tools.data).map (fun w => ofChars (stripCL w))
      let unk := tool_list.filterMap (fun t =>
        if elemStr t valid_tools then Option.none else some ("Unknown tool: " ++ t))
      let bashW :=
        if strHasSub tools "Bash" && !body.data.isEmpty &&
            !hasSubstrCL (lowerCL body.data) "validation".data &&
            !hasSubstrCL (lowerCL body.data) "sanitize".data then
          ["Has Bash access - ensure input validation is documented"]
        else []
      unk ++ bashW
  | _ => []

/-- Directory-structure and script-permission warnings of `validate_skill`. -/
def structurePartSkill (sd : SkillDir) (body : String) : List String :=
  (if !body.data.isEmpty && (sd.has_scripts || sd.has_references || sd.has_assets) &&
      !strHasSub body "\x7bbaseDir\x7d" then
    ["Has resource directories but does not use baseDir variable"]
  else []) ++
  (if sd.has_scripts then
    sd.nonexec_py.map (fun n => "Script not executable: " ++ n) ++
      sd.nonexec_sh.map (fun n => "Script not executable: " ++ n)
  else [])

/-- The recommended content sections of `validate_skill`. -/
def recommended_sections : List String :=
  ["When to Use", "Capabilities", "Examples", "How to Use"]

/-- Body-structure recommendations of `validate_skill`. -/
def bodyRecsSkill (body : String) : List String :=
  if body.data.isEmpty then []
  else
    (if strHasSub body "## " then []
     else ["Add section headings to structure the skill content"]) ++
    (let missing := recommended_sections.filter (fun s => !strHasSub body s)
     if missing.isEmpty then []
     else ["Consider adding sections: " ++ joinSep ", " missing])

/-- Embedding of `validate_skill` from `audit-skills.py`. -/
def validate_skill (sd : SkillDir) : Except PyErr ValReport :=
  match sd.parse with
  | .failure e => .ok ⟨"parse_error", [e], [], []⟩
  | .success fm body => do
      let nf := nameFieldPartSkill fm sd.name
      let dres ← descPartSkill fm
      let ce := namePartSkill sd.name ++ nf.1 ++ dres.1 ++ modelPartSkill fm sd.name
      let w := nf.2 ++ dres.2 ++ versionPartSkill fm ++ toolsPartSkill fm body ++
        structurePartSkill sd body
      let recs := gerundRecSkill sd.name ++ bodyRecsSkill body
      .ok ⟨statusOf ce w, ce, w, recs⟩

/-- Embedding of `migrate_single_command` from `migrate-command.py` at the data level: the
rewritten file keeps its path (hence its filename stem) and its body; only
the frontmatter is passed through `apply_all_migrations`. -/
def migrate_single_command (stem : String) (fm : Frontmatter) (body : String) :
    (String × Frontmatter × String) × List String :=
  let (fm2, changes) := apply_all_migrations fm
  ((stem, fm2, body), changes)

/-! ## Theorems -/

theorem fmGet_set_self (fm : Frontmatter) (k : String) (v : Value) :
    fmGet (fmSet fm k v) k = some v := by
  induction fm with
  | nil => simp [fmSet, fmGet]
  | cons h t ih =>
      obtain ⟨k', v'⟩ := h
      by_cases hk : k' = k <;> simp [fmSet, fmGet, hk, ih]

theorem fmGet_set_other (fm : Frontmatter) (k k' : String) (v : Value)
    (hne : k' ≠ k) : fmGet (fmSet fm k v) k' = fmGet fm k' := by
  induction fm with
  | nil => simp [fmSet, fmGet, Ne.symm hne]
  | cons h t ih =>
      obtain ⟨k₀, v₀⟩ := h
      by_cases hk : k₀ = k
      · subst hk
        simp [fmSet, fmGet, Ne.symm hne]
      · by_cases hk' : k₀ = k'
        · subst hk'
          simp [fmSet, fmGet, hk]
        · simp [fmSet, fmGet, hk, hk', ih]

theorem fmGet_del_self (fm : Frontmatter) (k : String) :
    fmGet (fmDel fm k) k = Option.none := by
  induction fm with
  | nil => simp [fmDel, fmGet]
  | cons h t ih =>
      obtain ⟨k₀, v₀⟩ := h
      by_cases hk : k₀ = k <;> simp [fmDel, fmGet, hk, ih]

theorem fmGet_del_other (fm : Frontmatter) (k k' : String) (hne : k' ≠ k) :
    fmGet (fmDel fm k) k' = fmGet fm k' := by
  induction fm with
  | nil => simp [fmDel, fmGet]
  | cons h t ih =>
      obtain ⟨k₀, v₀⟩ := h
      by_cases hk : k₀ = k
      · subst hk
        simp [fmDel, fmGet, Ne.symm hne, ih]
      · by_cases hk' : k₀ = k'
        · subst hk'
          simp [fmDel, fmGet, hk]
        · simp [fmDel, fmGet, hk, hk', ih]

theorem fmHas_del_self (fm : Frontmatter) (k : String) :
    fmHas (fmDel fm k) k = false := by
  simp [fmHas, fmGet_del_self]

theorem migrate_short_alias_noop (fm : Frontmatter)
    (h : modelFixed (fmGet fm "model")) :
    migrate_short_alias_to_version_alias fm = (fm, []) := by
  unfold migrate_short_alias_to_version_alias
  cases hm : fmGet fm "model" with
  | none => rfl
  | some v =>
      rw [hm] at h
      obtain ⟨ha, hi⟩ := h
      dsimp only
      rw [ha]
      cases v with
      | str s => simp [hi s rfl]
      | int n => rfl
      | bool b => rfl
      | list l => rfl
      | none => rfl

theorem strData_append (a b : String) : (a ++ b).data = a.data ++ b.data := by
  cases a with
  | mk l₁ => cases b with
    | mk l₂ => rfl

theorem prefixOfCL_self_append (p r : List Char) :
    prefixOfCL p (p ++ r) = true := by
  induction p with
  | nil => rfl
  | cons c t ih => simp [prefixOfCL, ih]

theorem strStarts_append (p s : String) :
    strStarts (p ++ s) p = true := by
  unfold strStarts
  rw [strData_append]
  exact prefixOfCL_self_append p.data s.data

theorem strStarts_append2 (p a b : String) :
    strStarts (p ++ a ++ b) p = true := by
  unfold strStarts
  rw [strData_append, strData_append, List.append_assoc]
  exact prefixOfCL_self_append p.data (a.data ++ b.data)

theorem aliasLookup_inv (v : Value) (nv : String)
    (h : aliasLookup v = some nv) :
    nv = "claude-haiku-4-5" ∨ nv = "claude-sonnet-4-5" ∨ nv = "claude-opus-4-5" := by
  cases v with
  | str s =>
      unfold aliasLookup at h
      by_cases h1 : s = "haiku"
      · simp [h1] at h
        exact Or.inl h.symm
      · by_cases h2 : s = "sonnet"
        · simp [h1, h2] at h
          exact Or.inr (Or.inl h.symm)
        · by_cases h3 : s = "opus"
          · simp [h1, h2, h3] at h
            exact Or.inr (Or.inr h.symm)
          · simp [h1, h2, h3] at h
  | int n => exact absurd h (by simp [aliasLookup])
  | bool b => exact absurd h (by simp [aliasLookup])
  | list l => exact absurd h (by simp [aliasLookup])
  | none => exact absurd h (by simp [aliasLookup])

theorem migrate_short_alias_fixes (fm : Frontmatter) :
    modelFixed (fmGet (migrate_short_alias_to_version_alias fm).1 "model") := by
  unfold migrate_short_alias_to_version_alias
  cases hm : fmGet fm "model" with
  | none =>
      dsimp only
      rw [hm]
      trivial
  | some v =>
      dsimp only
      cases ha : aliasLookup v with
      | some nv =>
          dsimp only
          rw [fmGet_set_self]
          rcases aliasLookup_inv v nv ha with h | h | h <;>
            · subst h
              exact ⟨by decide, by intro s hs; cases hs; decide⟩
      | none =>
          cases v with
          | str s =>
              by_cases hi : s = "inherit"
              · dsimp only
                rw [if_pos hi]
                dsimp only
                rw [fmGet_del_self]
                trivial
              · dsimp only
                rw [if_neg hi]
                rw [hm]
                exact ⟨ha, by intro t ht; cases ht; exact hi⟩
          | int n =>
              dsimp only
              rw [hm]
              exact ⟨ha, by intro t ht; cases ht⟩
          | bool b =>
              dsimp only
              rw [hm]
              exact ⟨ha, by intro t ht; cases ht⟩
          | list l =>
              dsimp only
              rw [hm]
              exact ⟨ha, by intro t ht; cases ht⟩
          | none =>
              dsimp only
              rw [hm]
              exact ⟨ha, by intro t ht; cases ht⟩

theorem migrate_short_alias_frame (fm : Frontmatter) (k : String)
    (hk : k ≠ "model") :
    fmGet (migrate_short_alias_to_version_alias fm).1 k = fmGet fm k := by
  unfold migrate_short_alias_to_version_alias
  cases hm : fmGet fm "model" with
  | none => rfl
  | some v =>
      dsimp only
      cases ha : aliasLookup v with
      | some nv =>
          dsimp only
          exact fmGet_set_other fm "model" k _ hk
      | none =>
          cases v with
          | str s =>
              by_cases hi : s = "inherit"
              · dsimp only
                rw [if_pos hi]
                exact fmGet_del_other fm "model" k hk
              · dsimp only
                rw [if_neg hi]
          | int n => rfl
          | bool b => rfl
          | list l => rfl
          | none => rfl

theorem migrate_argument_hint_noop (fm : Frontmatter)
    (h : hintFixed (fmGet fm "argument-hint")) :
    migrate_argument_hint_format fm = (fm, []) := by
  unfold migrate_argument_hint_format
  cases hm : fmGet fm "argument-hint" with
  | none => rfl
  | some v =>
      rw [hm] at h
      obtain ⟨hnl, hst⟩ := h
      dsimp only
      cases v with
      | str s => simp [hst]
      | int n => simp [hst]
      | bool b => simp [hst]
      | list l => exact absurd rfl (hnl l)
      | none => simp [hst]

theorem migrate_argument_hint_fixes (fm : Frontmatter) :
    hintFixed (fmGet (migrate_argument_hint_format fm).1 "argument-hint") := by
  unfold migrate_argument_hint_format
  cases hm : fmGet fm "argument-hint" with
  | none =>
      dsimp only
      rw [hm]
      trivial
  | some v =>
      dsimp only
      cases v with
      | list l =>
          dsimp only
          by_cases hst : strStarts (pyStr (Value.str (joinSep " " (l.map pyStr)))) "[" = true
          · rw [if_pos hst]
            dsimp only
            rw [fmGet_set_self]
            exact ⟨(by intro l' h; cases h), hst⟩
          · rw [if_neg hst]
            dsimp only
            rw [fmGet_set_self]
            refine ⟨(by intro l' h; cases h), ?_⟩
            exact strStarts_append2 "[" (pyStr (Value.str (joinSep " " (l.map pyStr)))) "]"
      | str s =>
          dsimp only
          by_cases hst : strStarts (pyStr (Value.str s)) "[" = true
          · rw [if_pos hst]
            dsimp only
            rw [hm]
            exact ⟨(by intro l' h; cases h), hst⟩
          · rw [if_neg hst]
            dsimp only
            rw [fmGet_set_self]
            exact ⟨(by intro l' h; cases h), strStarts_append2 "[" (pyStr (Value.str s)) "]"⟩
      | int n =>
          dsimp only
          by_cases hst : strStarts (pyStr (Value.int n)) "[" = true
          · rw [if_pos hst]
            dsimp only
            rw [hm]
            exact ⟨(by intro l' h; cases h), hst⟩
          · rw [if_neg hst]
            dsimp only
            rw [fmGet_set_self]
            exact ⟨(by intro l' h; cases h), strStarts_append2 "[" (pyStr (Value.int n)) "]"⟩
      | bool b =>
          dsimp only
          by_cases hst : strStarts (pyStr (Value.bool b)) "[" = true
          · rw [if_pos hst]
            dsimp only
            rw [hm]
            exact ⟨(by intro l' h; cases h), hst⟩
          · rw [if_neg hst]
            dsimp only
            rw [fmGet_set_self]
            exact ⟨(by intro l' h; cases h), strStarts_append2 "[" (pyStr (Value.bool b)) "]"⟩
      | none =>
          dsimp only
          by_cases hst : strStarts (pyStr Value.none) "[" = true
          · rw [if_pos hst]
            dsimp only
            rw [hm]
            exact ⟨(by intro l' h; cases h), hst⟩
          · rw [if_neg hst]
            dsimp only
            rw [fmGet_set_self]
            exact ⟨(by intro l' h; cases h), strStarts_append2 "[" (pyStr Value.none) "]"⟩

theorem migrate_argument_hint_frame (fm : Frontmatter) (k : String)
    (hk : k ≠ "argument-hint") :
    fmGet (migrate_argument_hint_format fm).1 k = fmGet fm k := by
  unfold migrate_argument_hint_format
  cases hm : fmGet fm "argument-hint" with
  | none => rfl
  | some v =>
      dsimp only
      cases v with
      | list l =>
          dsimp only
          by_cases hst : strStarts (pyStr (Value.str (joinSep " " (l.map pyStr)))) "[" = true
          · rw [if_pos hst]
            exact fmGet_set_other fm "argument-hint" k _ hk
          · rw [if_neg hst]
            dsimp only
            rw [fmGet_set_other _ "argument-hint" k _ hk]
            exact fmGet_set_other fm "argument-hint" k _ hk
      | str s =>
          dsimp only
          by_cases hst : strStarts (pyStr (Value.str s)) "[" = true
          · rw [if_pos hst]
          · rw [if_neg hst]
            exact fmGet_set_other fm "argument-hint" k _ hk
      | int n =>
          dsimp only
          by_cases hst : strStarts (pyStr (Value.int n)) "[" = true
          · rw [if_pos hst]
          · rw [if_neg hst]
            exact fmGet_set_other fm "argument-hint" k _ hk
      | bool b =>
          dsimp only
          by_cases hst : strStarts (pyStr (Value.bool b)) "[" = true
          · rw [if_pos hst]
          · rw [if_neg hst]
            exact fmGet_set_other fm "argument-hint" k _ hk
      | none =>
          dsimp only
          by_cases hst : strStarts (pyStr Value.none) "[" = true
          · rw [if_pos hst]
          · rw [if_neg hst]
            exact fmGet_set_other fm "argument-hint" k _ hk

theorem migrate_tools_noop (fm : Frontmatter) (h : toolsFixed fm) :
    migrate_tools_field_name fm = (fm, []) := by
  unfold migrate_tools_field_name
  cases hget : fmGet fm "tools" with
  | none => rfl
  | some tv =>
      cases hhas : fmHas fm "allowed-tools" with
      | false =>
          rcases h with h | h

          · rw [hget] at h
            cases h
          · rw [hhas] at h
            cases h
      | true => rfl

theorem migrate_tools_fixes (fm : Frontmatter) :
    toolsFixed (migrate_tools_field_name fm).1 := by
  unfold migrate_tools_field_name
  cases hget : fmGet fm "tools" with
  | none =>
      dsimp only
      exact Or.inl hget
  | some tv =>
      cases hhas : fmHas fm "allowed-tools" with
      | false =>
          dsimp only
          exact Or.inl (fmGet_del_self _ "tools")
      | true =>
          dsimp only
          exact Or.inr hhas

theorem migrate_tools_frame (fm : Frontmatter) (k : String)
    (hk1 : k ≠ "tools") (hk2 : k ≠ "allowed-tools") :
    fmGet (migrate_tools_field_name fm).1 k = fmGet fm k := by
  unfold migrate_tools_field_name
  cases hget : fmGet fm "tools" with
  | none => rfl
  | some tv =>
      cases hhas : fmHas fm "allowed-tools" with
      | false =>
          dsimp only
          rw [fmGet_del_other _ "tools" k hk1]
          exact fmGet_set_other fm "allowed-tools" k _ hk2
      | true => rfl

theorem apply_all_migrations_idem (fm : Frontmatter) :
    apply_all_migrations (apply_all_migrations fm).1 =
      ((apply_all_migrations fm).1, []) := by
  have h1fix := migrate_short_alias_fixes fm
  have h2fix := migrate_argument_hint_fixes (migrate_short_alias_to_version_alias fm).1
  have h3fix := migrate_tools_fixes
      (migrate_argument_hint_format (migrate_short_alias_to_version_alias fm).1).1
  have hfm3model :
      fmGet (apply_all_migrations fm).1 "model" =
        fmGet (migrate_short_alias_to_version_alias fm).1 "model" := by
    show fmGet (migrate_tools_field_name _).1 "model" = _
    rw [migrate_tools_frame _ "model" (by decide) (by decide),
        migrate_argument_hint_frame _ "model" (by decide)]
  have hfm3hint :
      fmGet (apply_all_migrations fm).1 "argument-hint" =
        fmGet (migrate_argument_hint_format
          (migrate_short_alias_to_version_alias fm).1).1 "argument-hint" := by
    show fmGet (migrate_tools_field_name _).1 "argument-hint" = _
    rw [migrate_tools_frame _ "argument-hint" (by decide) (by decide)]
  have hn1 : migrate_short_alias_to_version_alias (apply_all_migrations fm).1 =
      ((apply_all_migrations fm).1, []) := by
    apply migrate_short_alias_noop
    rw [hfm3model]
    exact h1fix
  have hn2 : migrate_argument_hint_format (apply_all_migrations fm).1 =
      ((apply_all_migrations fm).1, []) := by
    apply migrate_argument_hint_noop
    rw [hfm3hint]
    exact h2fix
  have hn3 : migrate_tools_field_name (apply_all_migrations fm).1 =
      ((apply_all_migrations fm).1, []) := by
    apply migrate_tools_noop
    exact h3fix
  conv_lhs => rw [apply_all_migrations]
  rw [hn1]
  simp only
  rw [hn2]
  simp only
  rw [hn3]
  simp

theorem recommendMsg_err (ev : String) (i j : Nat) (sp : String) :
    recommendMsg ev i j sp = .error (.nameError "CLAUDE_PLUGIN_ROOT") := rfl

theorem pathItemStep_eq (ev : String) (i j : Nat) (it : HookItem) :
    pathItemStep ev i j it =
      (if itemNeedsPathFix it then
        .error (.nameError "CLAUDE_PLUGIN_ROOT") else .ok []) := by
  unfold pathItemStep itemNeedsPathFix
  by_cases h1 : it.type? = some "command"
  · rw [if_pos h1]
    simp only [h1, decide_True, Bool.true_and]
    by_cases h2 : (strStarts (it.command?.getD "") "bash " ||
        strStarts (it.command?.getD "") "sh ") = true
    · rw [if_pos h2]
      simp only [h2, Bool.true_and]
      cases hs : splitWsCL (it.command?.getD "").data with
      | nil => simp
      | cons a tail =>
          cases tail with
          | nil => simp
          | cons p1 rest =>
              dsimp only
              by_cases h3 : (!strStarts (ofChars p1) "/" &&
                  !strStarts (ofChars p1) "$\x7b") = true
              · rw [if_pos h3, if_pos h3]
                simp [recommendMsg_err, Bind.bind, Except.bind]
              · rw [if_neg h3, if_neg h3]
    · rw [if_neg h2]
      simp only [h2, Bool.false_and, Bool.false_eq_true, if_false]
  · rw [if_neg h1]
    simp only [h1, decide_False, Bool.false_and, Bool.false_eq_true, if_false]

theorem mapItemsE_path_eq (ev : String) (i : Nat) :
    ∀ (its : List HookItem) (j : Nat),
      mapItemsE (pathItemStep ev i) j its =
        (if its.any itemNeedsPathFix then
          .error (.nameError "CLAUDE_PLUGIN_ROOT") else .ok []) := by
  intro its
  induction its with
  | nil => intro j; rfl
  | cons it rest ih =>
      intro j
      rw [mapItemsE, pathItemStep_eq]
      by_cases hit : itemNeedsPathFix it = true
      · simp [hit, Bind.bind, Except.bind]
      · simp only [hit, Bool.false_eq_true, if_false, Bind.bind, Except.bind,
          List.any_cons, Bool.false_or]
        rw [ih (j + 1)]
        by_cases hr : rest.any itemNeedsPathFix = true
        · simp [hr, hit]
        · simp [hr, hit]

theorem pathGroupStep_eq (ev : String) (i : Nat) (g : HookGroup) :
    pathGroupStep ev i g =
      (if (match g.items? with
            | Option.none => false
            | some its => its.any itemNeedsPathFix) then
        .error (.nameError "CLAUDE_PLUGIN_ROOT") else (.ok [] : Except PyErr (List String))) := by
  unfold pathGroupStep
  cases hi : g.items? with
  | none => rfl
  | some its =>
      dsimp only
      rw [mapItemsE_path_eq]

theorem mapGroupsCollectE_path_eq (ev : String) :
    ∀ (gs : List HookGroup) (i : Nat),
      mapGroupsCollectE (pathGroupStep ev) i gs =
        (if gs.any (fun g =>
            match g.items? with
            | Option.none => false
            | some its => its.any itemNeedsPathFix) then
          .error (.nameError "CLAUDE_PLUGIN_ROOT") else .ok []) := by
  intro gs
  induction gs with
  | nil => intro i; rfl
  | cons g rest ih =>
      intro i
      rw [mapGroupsCollectE, pathGroupStep_eq]
      by_cases hg : (match g.items? with
          | Option.none => false
          | some its => its.any itemNeedsPathFix) = true
      · simp [hg, Bind.bind, Except.bind]
      · simp only [hg, Bool.false_eq_true, if_false, Bind.bind, Except.bind,
          List.any_cons, Bool.false_or]
        rw [ih (i + 1)]
        by_cases hr : rest.any (fun g =>
            match g.items? with
            | Option.none => false
            | some its => its.any itemNeedsPathFix) = true
        · simp [hr, hg]
        · simp [hr, hg]

theorem mapEventsCollectE_path_eq :
    ∀ (evs : List (String × List HookGroup)),
      mapEventsCollectE (fun ev gs => mapGroupsCollectE (pathGroupStep ev) 0 gs) evs =
        (if evs.any (fun e => e.2.any (fun g =>
            match g.items? with
            | Option.none => false
            | some its => its.any itemNeedsPathFix)) then
          .error (.nameError "CLAUDE_PLUGIN_ROOT") else .ok []) := by
  intro evs
  induction evs with
  | nil => rfl
  | cons e rest ih =>
      obtain ⟨ev, gs⟩ := e
      rw [mapEventsCollectE, mapGroupsCollectE_path_eq]
      by_cases hg : gs.any (fun g =>
          match g.items? with
          | Option.none => false
          | some its => its.any itemNeedsPathFix) = true
      · simp [hg, Bind.bind, Except.bind]
      · simp only [hg, Bool.false_eq_true, if_false, Bind.bind, Except.bind,
          List.any_cons, Bool.false_or]
        rw [ih]
        by_cases hr : rest.any (fun e => e.2.any (fun g =>
            match g.items? with
            | Option.none => false
            | some its => its.any itemNeedsPathFix)) = true
        · simp [hr, hg]
        · simp [hr, hg]

theorem allWarn_nil : allWarn [] := by
  intro x hx
  cases hx

theorem allWarn_append {a b : List String} (ha : allWarn a) (hb : allWarn b) :
    allWarn (a ++ b) := by
  intro x hx
  rcases List.mem_append.mp hx with h | h
  · exact ha x h
  · exact hb x h

theorem strip_group_idem (ev : String) (i : Nat) (g g2 : HookGroup)
    (c : List String) (h : stripLifecycleGroup ev i g = .ok (g2, c)) :
    ∃ c2, stripLifecycleGroup ev i g2 = .ok (g2, c2) ∧ allWarn c2 := by
  unfold stripLifecycleGroup at h
  cases hm : g.matcher? with
  | none =>
      rw [hm] at h
      simp only [Except.ok.injEq, Prod.mk.injEq] at h
      obtain ⟨rfl, rfl⟩ := h
      exact ⟨[], by rw [stripLifecycleGroup, hm], allWarn_nil⟩
  | some m =>
      rw [hm] at h
      dsimp only at h
      by_cases ht : vTruthy m = true
      · rw [if_pos ht] at h
        cases m with
        | str s =>
            dsimp only at h
            by_cases hstrip : (stripCL s.data).isEmpty = true
            · rw [if_pos hstrip] at h
              simp only [Except.ok.injEq, Prod.mk.injEq] at h
              obtain ⟨rfl, rfl⟩ := h
              exact ⟨[], rfl, allWarn_nil⟩
            · rw [if_neg hstrip] at h
              simp only [Except.ok.injEq, Prod.mk.injEq] at h
              obtain ⟨rfl, rfl⟩ := h
              refine ⟨[warnMsg ev i s], ?_, ?_⟩
              · rw [stripLifecycleGroup, hm]
                dsimp only
                rw [if_pos ht, if_neg hstrip]
              · intro x hx
                rcases List.mem_singleton.mp hx with rfl
                exact ⟨warnBody ev i s, rfl⟩
        | int n => simp at h
        | bool b => simp at h
        | list l => simp at h
        | none => simp at h
      · rw [if_neg ht] at h
        simp only [Except.ok.injEq, Prod.mk.injEq] at h
        obtain ⟨rfl, rfl⟩ := h
        exact ⟨[], rfl, allWarn_nil⟩

theorem mapGroupsE_strip_idem (ev : String) :
    ∀ (gs : List HookGroup) (i : Nat) (gs2 : List HookGroup) (c : List String),
      mapGroupsE (stripLifecycleGroup ev) i gs = .ok (gs2, c) →
      ∃ c2, mapGroupsE (stripLifecycleGroup ev) i gs2 = .ok (gs2, c2) ∧ allWarn c2 := by
  intro gs
  induction gs with
  | nil =>
      intro i gs2 c h
      simp only [mapGroupsE, Except.ok.injEq, Prod.mk.injEq] at h
      obtain ⟨rfl, rfl⟩ := h
      exact ⟨[], rfl, allWarn_nil⟩
  | cons g rest ih =>
      intro i gs2 c h
      rw [mapGroupsE] at h
      cases hf : stripLifecycleGroup ev i g with
      | error e =>
          rw [hf] at h
          simp [Bind.bind, Except.bind] at h
      | ok p =>
          obtain ⟨g2, cg⟩ := p
          rw [hf] at h
          cases hrest : mapGroupsE (stripLifecycleGroup ev) (i + 1) rest with
          | error e =>
              rw [hrest] at h
              simp [Bind.bind, Except.bind] at h
          | ok q =>
              obtain ⟨rest2, cs⟩ := q
              rw [hrest] at h
              simp only [Bind.bind, Except.bind, Except.ok.injEq, Prod.mk.injEq] at h
              obtain ⟨rfl, rfl⟩ := h
              obtain ⟨c2g, hG, hWg⟩ := strip_group_idem ev i g g2 cg hf
              obtain ⟨c2s, hR, hWs⟩ := ih (i + 1) rest2 cs hrest
              refine ⟨c2g ++ c2s, ?_, allWarn_append hWg hWs⟩
              rw [mapGroupsE, hG]
              simp only [Bind.bind, Except.bind]
              rw [hR]

theorem fill_group_idem (ev : String) (i : Nat) (g : HookGroup) :
    fillToolGroup ev i (fillToolGroup ev i g).1 = ((fillToolGroup ev i g).1, []) := by
  cases hm : g.matcher? with
  | none =>
      have h1 : fillToolGroup ev i g =
          ({ g with matcher? := some (.str "*") }, [addedMsg ev i]) := by
        unfold fillToolGroup
        rw [hm]
      rw [h1]
      rfl
  | some m =>
      by_cases ht : vTruthy m = true
      · have h1 : fillToolGroup ev i g = (g, []) := by
          unfold fillToolGroup
          rw [hm]
          dsimp only
          rw [if_pos ht]
        rw [h1]
        simpa using h1
      · have h1 : fillToolGroup ev i g =
            ({ g with matcher? := some (.str "*") }, [addedMsg ev i]) := by
          unfold fillToolGroup
          rw [hm]
          dsimp only
          rw [if_neg ht]
        rw [h1]
        rfl

theorem mapGroupsP_fill_idem (ev : String) :
    ∀ (gs : List HookGroup) (i : Nat) (gs2 : List HookGroup) (c : List String),
      mapGroupsP (fillToolGroup ev) i gs = (gs2, c) →
      mapGroupsP (fillToolGroup ev) i gs2 = (gs2, []) := by
  intro gs
  induction gs with
  | nil =>
      intro i gs2 c h
      simp only [mapGroupsP, Prod.mk.injEq] at h
      obtain ⟨rfl, rfl⟩ := h
      rfl
  | cons g rest ih =>
      intro i gs2 c h
      rw [mapGroupsP] at h
      cases hf : fillToolGroup ev i g with
      | mk g2 cg =>
          rw [hf] at h
          cases hrest : mapGroupsP (fillToolGroup ev) (i + 1) rest with
          | mk rest2 cs =>
              rw [hrest] at h
              simp only [Prod.mk.injEq] at h
              obtain ⟨rfl, rfl⟩ := h
              have hg2 : fillToolGroup ev i g2 = (g2, []) := by
                have := fill_group_idem ev i g
                rw [hf] at this
                exact this
              rw [mapGroupsP, hg2]
              simp only
              rw [ih (i + 1) rest2 cs hrest]
              simp

theorem lifecycle_not_tool (ev : String)
    (h : elemStr ev LIFECYCLE_EVENTS = true) : elemStr ev TOOL_EVENTS = false := by
  simp only [elemStr, LIFECYCLE_EVENTS, Bool.or_eq_true, beq_iff_eq] at h
  rcases h with h | h | h | h | h | h | h
  · subst h; decide
  · subst h; decide
  · subst h; decide
  · subst h; decide
  · subst h; decide
  · subst h; decide
  · cases h

theorem event_step_idem (ev : String) (gs gs1 : List HookGroup) (c : List String)
    (h : removeEventStep ev gs = .ok (gs1, c))
    (gs2 : List HookGroup) (d : List String)
    (h2 : addEventStep ev gs1 = (gs2, d)) :
    (∃ w, removeEventStep ev gs2 = .ok (gs2, w) ∧ allWarn w) ∧
      addEventStep ev gs2 = (gs2, []) := by
  unfold removeEventStep at h
  unfold addEventStep at h2
  by_cases hl : elemStr ev LIFECYCLE_EVENTS = true
  · rw [if_pos hl] at h
    rw [lifecycle_not_tool ev hl] at h2
    simp only [Bool.false_eq_true, if_false, Prod.mk.injEq] at h2
    obtain ⟨rfl, rfl⟩ := h2
    obtain ⟨w, hw, hwarn⟩ := mapGroupsE_strip_idem ev gs 0 gs1 c h
    constructor
    · refine ⟨w, ?_, hwarn⟩
      rw [removeEventStep, if_pos hl]
      exact hw
    · rw [addEventStep, lifecycle_not_tool ev hl]
      simp
  · rw [if_neg hl] at h
    simp only [Except.ok.injEq, Prod.mk.injEq] at h
    obtain ⟨rfl, rfl⟩ := h
    by_cases htool : elemStr ev TOOL_EVENTS = true
    · rw [if_pos htool] at h2
      constructor
      · refine ⟨[], ?_, allWarn_nil⟩
        rw [removeEventStep, if_neg hl]
      · rw [addEventStep, if_pos htool]
        exact mapGroupsP_fill_idem ev gs 0 gs2 d h2
    · rw [if_neg htool] at h2
      simp only [Prod.mk.injEq] at h2
      obtain ⟨rfl, rfl⟩ := h2
      constructor
      · refine ⟨[], ?_, allWarn_nil⟩
        rw [removeEventStep, if_neg hl]
      · rw [addEventStep, if_neg htool]

theorem events_strip_fill_idem :
    ∀ (evs evs1 : List (String × List HookGroup)) (l1 : List String),
      mapEventsE removeEventStep evs = .ok (evs1, l1) →
      ∀ (evs2 : List (String × List HookGroup)) (l2 : List String),
        mapEventsP addEventStep evs1 = (evs2, l2) →
        (∃ w, mapEventsE removeEventStep evs2 = .ok (evs2, w) ∧ allWarn w) ∧
          mapEventsP addEventStep evs2 = (evs2, []) := by
  intro evs
  induction evs with
  | nil =>
      intro evs1 l1 h evs2 l2 h2
      simp only [mapEventsE, Except.ok.injEq, Prod.mk.injEq] at h
      obtain ⟨rfl, rfl⟩ := h
      simp only [mapEventsP, Prod.mk.injEq] at h2
      obtain ⟨rfl, rfl⟩ := h2
      exact ⟨⟨[], rfl, allWarn_nil⟩, rfl⟩
  | cons e rest ih =>
      intro evs1 l1 h evs2 l2 h2
      obtain ⟨ev, gs⟩ := e
      rw [mapEventsE] at h
      cases hf : removeEventStep ev gs with
      | error er =>
          rw [hf] at h
          simp [Bind.bind, Except.bind] at h
      | ok p =>
          obtain ⟨gs1, cg⟩ := p
          rw [hf] at h
          cases hrest : mapEventsE removeEventStep rest with
          | error er =>
              rw [hrest] at h
              simp [Bind.bind, Except.bind] at h
          | ok q =>
              obtain ⟨rest1, cs⟩ := q
              rw [hrest] at h
              simp only [Bind.bind, Except.bind, Except.ok.injEq, Prod.mk.injEq] at h
              obtain ⟨rfl, rfl⟩ := h
              rw [mapEventsP] at h2
              cases hA : addEventStep ev gs1 with
              | mk gs2h dh =>
                  rw [hA] at h2
                  cases hArest : mapEventsP addEventStep rest1 with
                  | mk rest2 ds =>
                      rw [hArest] at h2
                      simp only [Prod.mk.injEq] at h2
                      obtain ⟨rfl, rfl⟩ := h2
                      obtain ⟨⟨w1, hw1, hwarn1⟩, hadd1⟩ :=
                        event_step_idem ev gs gs1 cg hf gs2h dh hA
                      obtain ⟨⟨wr, hwr, hwarnr⟩, haddr⟩ :=
                        ih rest1 cs hrest rest2 ds hArest
                      constructor
                      · refine ⟨w1 ++ wr, ?_, allWarn_append hwarn1 hwarnr⟩
                        rw [mapEventsE, hw1]
                        simp only [Bind.bind, Except.bind]
                        rw [hwr]
                      · rw [mapEventsP, hadd1]
                        simp only
                        rw [haddr]
                        simp

theorem hook_matcher_migrations_idem (cfg cfg' : HooksConfig) (ch : List String)
    (h : hook_matcher_migrations cfg = .ok (cfg', ch)) :
    ∃ ch2, hook_matcher_migrations cfg' = .ok (cfg', ch2) ∧ allWarn ch2 := by
  unfold hook_matcher_migrations at h
  unfold migrate_remove_empty_matchers at h
  cases cfg with
  | mk hooks? =>
      cases hooks? with
      | none =>
          simp only [Bind.bind, Except.bind] at h
          rw [migrate_add_missing_matchers] at h
          simp only [Except.ok.injEq, Prod.mk.injEq] at h
          obtain ⟨rfl, rfl⟩ := h
          refine ⟨[], ?_, allWarn_nil⟩
          rw [hook_matcher_migrations]
          simp only [Bind.bind, Except.bind, migrate_remove_empty_matchers]
          rfl
      | some evs =>
          dsimp only at h
          cases hme : mapEventsE removeEventStep evs with
          | error er =>
              rw [hme] at h
              simp [Bind.bind, Except.bind] at h
          | ok p =>
              obtain ⟨evs1, l1⟩ := p
              rw [hme] at h
              simp only [Bind.bind, Except.bind] at h
              rw [migrate_add_missing_matchers] at h
              dsimp only at h
              cases hmp : mapEventsP addEventStep evs1 with
              | mk evs2 l2 =>
                  rw [hmp] at h
                  simp only [Except.ok.injEq, Prod.mk.injEq] at h
                  obtain ⟨rfl, rfl⟩ := h
                  obtain ⟨⟨w, hw, hwarn⟩, hadd⟩ :=
                    events_strip_fill_idem evs evs1 l1 hme evs2 l2 hmp
                  refine ⟨w ++ [], ?_, allWarn_append hwarn allWarn_nil⟩
                  rw [hook_matcher_migrations]
                  simp only [Bind.bind, Except.bind, migrate_remove_empty_matchers]
                  rw [hw]
                  simp only
                  rw [migrate_add_missing_matchers]
                  dsimp only
                  rw [hadd]

/-- String append is associative (via the underlying character lists). -/
theorem strAppend_assoc (a b c : String) : a ++ b ++ c = a ++ (b ++ c) := by
  cases a with
  | mk l₁ => cases b with
    | mk l₂ => cases c with
      | mk l₃ =>
          show String.mk (l₁ ++ l₂ ++ l₃) = String.mk (l₁ ++ (l₂ ++ l₃))
          rw [List.append_assoc]

theorem validate_command_ok_inv (stem : String) (fm : Frontmatter) (body : String)
    (r : ValReport) (h : validate_command stem (.success fm body) = .ok r) :
    ∃ d m a, descPartCmd fm = .ok d ∧ modelPartCmd fm = .ok m ∧
      argsPartCmd fm body = .ok a ∧
      r.critical_errors =
        namePartCmd stem ++ d.1 ++ m.1 ++ (toolsPartCmd fm body).1 ++ a.1 := by
  unfold validate_command at h
  dsimp only at h
  cases hd : descPartCmd fm with
  | error e =>
      rw [hd] at h
      simp [Bind.bind, Except.bind] at h
  | ok d =>
      rw [hd] at h
      cases hm : modelPartCmd fm with
      | error e =>
          rw [hm] at h
          simp [Bind.bind, Except.bind] at h
      | ok m =>
          rw [hm] at h
          cases ha : argsPartCmd fm body with
          | error e =>
              rw [ha] at h
              simp [Bind.bind, Except.bind] at h
          | ok a =>
              rw [ha] at h
              simp only [Bind.bind, Except.bind, Except.ok.injEq] at h
              exact ⟨d, m, a, rfl, rfl, rfl, by rw [← h]⟩

theorem validate_skill_ok_inv (sd : SkillDir) (fm : Frontmatter) (body : String)
    (r : ValReport) (hp : sd.parse = .success fm body)
    (h : validate_skill sd = .ok r) :
    ∃ d, descPartSkill fm = .ok d ∧
      r.critical_errors =
        namePartSkill sd.name ++ (nameFieldPartSkill fm sd.name).1 ++ d.1 ++
          modelPartSkill fm sd.name := by
  unfold validate_skill at h
  rw [hp] at h
  dsimp only at h
  cases hd : descPartSkill fm with
  | error e =>
      rw [hd] at h
      simp [Bind.bind, Except.bind] at h
  | ok d =>
      rw [hd] at h
      simp only [Bind.bind, Except.bind, Except.ok.injEq] at h
      exact ⟨d, rfl, by rw [← h]⟩

/-! ## Claim theorems -/

/-- Claim C1 (amended): the command migration pipeline
`apply_all_migrations` is fully idempotent — a second run on migrated
frontmatter returns it unchanged with an empty change list. The hook
matcher migrations never mutate an already-migrated configuration further,
but their change list on a second run is not empty in general: it consists
exactly of repeated `WARNING:` entries (for lifecycle hooks that keep a
non-empty matcher). -/
theorem claim_C1_migration_idempotence :
    (∀ fm : Frontmatter,
        apply_all_migrations (apply_all_migrations fm).1 =
          ((apply_all_migrations fm).1, [])) ∧
    (∀ (cfg cfg' : HooksConfig) (ch : List String),
        hook_matcher_migrations cfg = .ok (cfg', ch) →
        ∃ ch2, hook_matcher_migrations cfg' = .ok (cfg', ch2) ∧
          ∀ x ∈ ch2, ∃ r, x = "WARNING: " ++ r) :=
  ⟨apply_all_migrations_idem, hook_matcher_migrations_idem⟩

/-- Witness for claim C1 at concrete inputs: a frontmatter with a short
model alias, and a hooks configuration whose `Stop` hook keeps a non-empty
matcher. -/
theorem claim_C1_migration_idempotence_witness :
    apply_all_migrations (apply_all_migrations [("model", Value.str "haiku")]).1 =
      ((apply_all_migrations [("model", Value.str "haiku")]).1, []) ∧
    (∃ ch2,
      hook_matcher_migrations
          (⟨some [("Stop", [⟨some (Value.str "x"), Option.none⟩])]⟩ : HooksConfig) =
        .ok (⟨some [("Stop", [⟨some (Value.str "x"), Option.none⟩])]⟩, ch2) ∧
      ∀ x ∈ ch2, ∃ r, x = "WARNING: " ++ r) := by
  refine ⟨claim_C1_migration_idempotence.1 _, ?_⟩
  exact claim_C1_migration_idempotence.2
    ⟨some [("Stop", [⟨some (Value.str "x"), Option.none⟩])]⟩
    ⟨some [("Stop", [⟨some (Value.str "x"), Option.none⟩])]⟩
    ["WARNING: Stop hook #1 has matcher x (lifecycle events should not have matchers)"] rfl

/-- Counterexample to claim C1 as stated: on a configuration whose `Stop`
hook has a non-empty matcher, the hook matcher migrations return the
configuration as a fixed point but report a non-empty change list, so a
second run reports the same non-empty change list instead of zero changes. -/
theorem claim_C1_counterexample :
    hook_matcher_migrations
        (⟨some [("Stop", [⟨some (Value.str "x"), Option.none⟩])]⟩ : HooksConfig) =
      .ok (⟨some [("Stop", [⟨some (Value.str "x"), Option.none⟩])]⟩,
        ["WARNING: Stop hook #1 has matcher x (lifecycle events should not have matchers)"]) ∧
    (["WARNING: Stop hook #1 has matcher x (lifecycle events should not have matchers)"] :
      List String) ≠ [] :=
  ⟨rfl, by simp⟩

/-- Claim C6: migrating a hooks configuration in which a `PreToolUse` hook
group lacks a matcher and a `Stop` group has an empty matcher sets the
`PreToolUse` matcher to the wildcard (recording the added default) and
deletes the `Stop` matcher key (recording the removal). -/
theorem claim_C6_matcher_scenario :
    hook_matcher_migrations
        (⟨some [("PreToolUse",
                  [⟨Option.none, some [⟨some "command", some "echo hi", Option.none⟩]⟩]),
                ("Stop",
                  [⟨some (Value.str ""), some [⟨some "command", some "echo bye", Option.none⟩]⟩])]⟩ :
          HooksConfig) =
      .ok (⟨some [("PreToolUse",
                    [⟨some (Value.str "*"), some [⟨some "command", some "echo hi", Option.none⟩]⟩]),
                  ("Stop",
                    [⟨Option.none, some [⟨some "command", some "echo bye", Option.none⟩]⟩])]⟩,
        ["Removed empty matcher from Stop hook #1",
         "Added default matcher * to PreToolUse hook #1"]) := rfl

/-- Claim C9: the `tools` to `allowed-tools` rename fires only when
`allowed-tools` is absent; it moves the value and deletes `tools`, it is the
identity (with no recorded change) otherwise, and every key other than
`tools` and `allowed-tools` keeps its value in all cases. -/
theorem claim_C9_tools_rename (fm : Frontmatter) (k : String) :
    (∀ tv, fmGet fm "tools" = some tv → fmHas fm "allowed-tools" = false →
        migrate_tools_field_name fm =
          (fmDel (fmSet fm "allowed-tools" tv) "tools",
           ["Renamed field: tools to allowed-tools"]) ∧
        fmGet (migrate_tools_field_name fm).1 "allowed-tools" = some tv ∧
        fmHas (migrate_tools_field_name fm).1 "tools" = false) ∧
    (fmGet fm "tools" = Option.none ∨ fmHas fm "allowed-tools" = true →
        migrate_tools_field_name fm = (fm, [])) ∧
    (k ≠ "tools" → k ≠ "allowed-tools" →
        fmGet (migrate_tools_field_name fm).1 k = fmGet fm k) := by
  refine ⟨?_, migrate_tools_noop fm, migrate_tools_frame fm k⟩
  intro tv htv hhas
  have heq : migrate_tools_field_name fm =
      (fmDel (fmSet fm "allowed-tools" tv) "tools",
       ["Renamed field: tools to allowed-tools"]) := by
    unfold migrate_tools_field_name
    rw [htv, hhas]
  refine ⟨heq, ?_, ?_⟩
  · rw [heq]
    simp only
    rw [fmGet_del_other _ "tools" "allowed-tools" (by decide)]
    exact fmGet_set_self fm "allowed-tools" tv
  · rw [heq]
    simp only
    exact fmHas_del_self _ "tools"

/-- Witness for claim C9: renaming fires on a frontmatter holding `tools`
but not `allowed-tools`, and the unrelated `description` key is untouched. -/
theorem claim_C9_tools_rename_witness :
    migrate_tools_field_name [("tools", Value.str "Read"), ("description", Value.str "d")] =
      (fmDel (fmSet [("tools", Value.str "Read"), ("description", Value.str "d")]
        "allowed-tools" (Value.str "Read")) "tools",
       ["Renamed field: tools to allowed-tools"]) ∧
    fmGet (migrate_tools_field_name
        [("tools", Value.str "Read"), ("description", Value.str "d")]).1 "description" =
      some (Value.str "d") := by
  have h := claim_C9_tools_rename
    [("tools", Value.str "Read"), ("description", Value.str "d")] "description"
  refine ⟨(h.1 (Value.str "Read") rfl rfl).1, ?_⟩
  rw [h.2.2 (by decide) (by decide)]
  rfl

/-- Claim C10: for every hooks configuration, `migrate_normalize_script_paths`
raises `NameError` on the unbound name `CLAUDE_PLUGIN_ROOT` (evaluated by the
recommendation f-string) exactly when some command hook invokes `bash`/`sh`
on a script path that is neither absolute nor a variable reference, so the
documented recommendation is never produced; otherwise it returns the
configuration unchanged with no recommendations. -/
theorem claim_C10_normalize_paths_nameerror (cfg : HooksConfig) :
    migrate_normalize_script_paths cfg =
      if cfgHasRelPath cfg then .error (.nameError "CLAUDE_PLUGIN_ROOT")
      else .ok (cfg, []) := by
  unfold migrate_normalize_script_paths cfgHasRelPath
  cases hh : cfg.hooks? with
  | none => rfl
  | some evs =>
      dsimp only
      rw [mapEventsCollectE_path_eq]
      by_cases hc : evs.any (fun e => e.2.any (fun g =>
          match g.items? with
          | Option.none => false
          | some its => its.any itemNeedsPathFix)) = true
      · simp [hc, Bind.bind, Except.bind]
      · simp [hc, Bind.bind, Except.bind]

/-- Claim C2: a command frontmatter whose `model` equals `haiku`, `sonnet`,
`opus` or `inherit` always receives a critical short-alias finding from the
audit validation (whenever validation returns a report), and the migration
rewrites the field to the corresponding `claude-<tier>-4-5` version alias,
or deletes it entirely for `inherit`. -/
theorem claim_C2_short_alias_rejection (stem : String) (fm : Frontmatter)
    (body : String) (a : String) (ha : a ∈ shortAliases)
    (hm : fmGet fm "model" = some (Value.str a)) :
    (∀ r, validate_command stem (.success fm body) = .ok r →
        ("CRITICAL: Commands cannot use short alias " ++ a) ∈ r.critical_errors) ∧
    (a = "haiku" → migrate_short_alias_to_version_alias fm =
        (fmSet fm "model" (Value.str "claude-haiku-4-5"),
         ["Migrated model: haiku to claude-haiku-4-5"])) ∧
    (a = "sonnet" → migrate_short_alias_to_version_alias fm =
        (fmSet fm "model" (Value.str "claude-sonnet-4-5"),
         ["Migrated model: sonnet to claude-sonnet-4-5"])) ∧
    (a = "opus" → migrate_short_alias_to_version_alias fm =
        (fmSet fm "model" (Value.str "claude-opus-4-5"),
         ["Migrated model: opus to claude-opus-4-5"])) ∧
    (a = "inherit" →
        migrate_short_alias_to_version_alias fm =
          (fmDel fm "model", ["Removed model: inherit (use field omission instead)"]) ∧
        fmHas (migrate_short_alias_to_version_alias fm).1 "model" = false) := by
  refine ⟨?_, ?_, ?_, ?_, ?_⟩
  · intro r hr
    obtain ⟨d, m, ar, hd, hmp, har, hce⟩ := validate_command_ok_inv stem fm body r hr
    have hany : (shortAliases.any fun x => vEqStr (Value.str a) x) = true :=
      List.any_eq_true.mpr ⟨a, ha, by simp [vEqStr]⟩
    have hmp2 : modelPartCmd fm =
        .ok (["CRITICAL: Commands cannot use short alias " ++ a], []) := by
      unfold modelPartCmd
      rw [hm]
      dsimp only
      rw [if_pos hany]
      rfl
    rw [hmp] at hmp2
    simp only [Except.ok.injEq] at hmp2
    rw [hce, hmp2]
    simp [List.mem_append]
  · intro haa
    subst haa
    unfold migrate_short_alias_to_version_alias
    rw [hm]
    rfl
  · intro haa
    subst haa
    unfold migrate_short_alias_to_version_alias
    rw [hm]
    rfl
  · intro haa
    subst haa
    unfold migrate_short_alias_to_version_alias
    rw [hm]
    rfl
  · intro haa
    subst haa
    have heq : migrate_short_alias_to_version_alias fm =
        (fmDel fm "model", ["Removed model: inherit (use field omission instead)"]) := by
      unfold migrate_short_alias_to_version_alias
      rw [hm]
      rfl
    refine ⟨heq, ?_⟩
    rw [heq]
    exact fmHas_del_self fm "model"

/-- Witness for claim C2 at a concrete command: `model: haiku` with no
description, and the `inherit` deletion case. -/
theorem claim_C2_short_alias_rejection_witness :
    ("CRITICAL: Commands cannot use short alias haiku") ∈
      (ValReport.mk "errors"
        ["Missing required description field",
         "CRITICAL: Commands cannot use short alias haiku"] [] []).critical_errors ∧
    migrate_short_alias_to_version_alias [("model", Value.str "haiku")] =
      (fmSet [("model", Value.str "haiku")] "model" (Value.str "claude-haiku-4-5"),
       ["Migrated model: haiku to claude-haiku-4-5"]) ∧
    migrate_short_alias_to_version_alias [("model", Value.str "inherit")] =
      (fmDel [("model", Value.str "inherit")] "model",
       ["Removed model: inherit (use field omission instead)"]) := by
  refine ⟨?_, ?_, ?_⟩
  · exact (claim_C2_short_alias_rejection "run-build" [("model", Value.str "haiku")]
      "" "haiku" (by simp [shortAliases]) rfl).1 _ rfl
  · exact (claim_C2_short_alias_rejection "run-build" [("model", Value.str "haiku")]
      "" "haiku" (by simp [shortAliases]) rfl).2.1 rfl
  · exact ((claim_C2_short_alias_rejection "run-build" [("model", Value.str "inherit")]
      "" "inherit" (by simp [shortAliases]) rfl).2.2.2.2 rfl).1

/-- Claim C3: a skill frontmatter containing a `model` key, whatever its
value, always receives the critical model-removal finding from the skill
audit (whenever validation returns a report), and the skill migration
deletes the key, recording an automatic change marked `CRITICAL:` (never an
advisory-only recommendation). -/
theorem claim_C3_skill_model_rejection (sd : SkillDir) (fm : Frontmatter)
    (body : String) (hp : sd.parse = .success fm body)
    (hm : fmHas fm "model" = true) :
    (∀ r, validate_skill sd = .ok r →
        ("CRITICAL: Skills cannot have model field. Only agents support model specification. Run: /agent-builder:skills:migrate " ++ sd.name ++ " --apply")
          ∈ r.critical_errors) ∧
    (∃ old, fmGet fm "model" = some old ∧
        migrate_remove_model_field fm =
          (fmDel fm "model",
           ["CRITICAL: Removed model field with value " ++ pyStr old ++
            " (skills do not support model specification)"]) ∧
        fmHas (migrate_remove_model_field fm).1 "model" = false ∧
        ∀ c ∈ (migrate_remove_model_field fm).2, ∃ r2, c = "CRITICAL: " ++ r2) := by
  constructor
  · intro r hr
    obtain ⟨d, hd, hce⟩ := validate_skill_ok_inv sd fm body r hp hr
    have hmp : modelPartSkill fm sd.name =
        ["CRITICAL: Skills cannot have model field. Only agents support model specification. Run: /agent-builder:skills:migrate " ++ sd.name ++ " --apply"] := by
      unfold modelPartSkill
      rw [if_pos hm]
    rw [hce, hmp]
    simp [List.mem_append]
  · obtain ⟨old, hold⟩ := Option.isSome_iff_exists.mp hm
    have heq : migrate_remove_model_field fm =
        (fmDel fm "model",
         ["CRITICAL: Removed model field with value " ++ pyStr old ++
          " (skills do not support model specification)"]) := by
      unfold migrate_remove_model_field
      rw [hold]
    refine ⟨old, hold, heq, ?_, ?_⟩
    · rw [heq]
      exact fmHas_del_self fm "model"
    · rw [heq]
      intro c hc
      rcases List.mem_singleton.mp hc with rfl
      refine ⟨"Removed model field with value " ++ pyStr old ++
        " (skills do not support model specification)", ?_⟩
      have hsplit : ("CRITICAL: Removed model field with value " : String) =
          "CRITICAL: " ++ "Removed model field with value " := rfl
      rw [hsplit]
      simp only [strAppend_assoc]

/-- Witness for claim C3 at a concrete skill directory with `model: opus`. -/
theorem claim_C3_skill_model_rejection_witness :
    ("CRITICAL: Skills cannot have model field. Only agents support model specification. Run: /agent-builder:skills:migrate building-stuff --apply") ∈
      (ValReport.mk "errors"
        ["Missing required name field", "Missing required description field",
         "CRITICAL: Skills cannot have model field. Only agents support model specification. Run: /agent-builder:skills:migrate building-stuff --apply"]
        [] []).critical_errors ∧
    migrate_remove_model_field [("model", Value.str "opus")] =
      ([], ["CRITICAL: Removed model field with value opus (skills do not support model specification)"]) := by
  have h := claim_C3_skill_model_rejection
    ⟨"building-stuff", .success [("model", Value.str "opus")] "", false, false, false, [], []⟩
    [("model", Value.str "opus")] "" rfl rfl
  constructor
  · exact h.1 _ rfl
  · obtain ⟨old, hold, heq, _, _⟩ := h.2
    have : old = Value.str "opus" := by
      have h2 : (some (Value.str "opus") : Option Value) = some old := hold
      exact (Option.some.inj h2).symm
    subst this
    rw [heq]
    rfl

/-- Claim C4 (amended): the eval-with-arguments security flag fires exactly
under the `Bash`-in-`allowed-tools` guard — whenever the `allowed-tools`
string contains `Bash` and the body matches the `eval`-whitespace-dollar
pattern, validation reports the critical security finding; with
`allowed-tools` absent the scan is skipped entirely (see the
counterexample). -/
theorem claim_C4_eval_flag_requires_bash (stem : String) (fm : Frontmatter)
    (body tools : String)
    (h1 : fmGet fm "allowed-tools" = some (Value.str tools))
    (h2 : strHasSub tools "Bash" = true)
    (h3 : hasEvalDollarCL body.data = true) :
    ∀ r, validate_command stem (.success fm body) = .ok r →
      "SECURITY: Using eval with arguments is dangerous" ∈ r.critical_errors := by
  intro r hr
  obtain ⟨d, m, ar, hd, hmp, har, hce⟩ := validate_command_ok_inv stem fm body r hr
  have hne : body.data.isEmpty = false := by
    cases hb : body.data with
    | nil =>
        rw [hb] at h3
        exact absurd h3 (by decide)
    | cons c t => rfl
  have h2' : hasSubstrCL tools.data "Bash".data = true := h2
  have hmem : "SECURITY: Using eval with arguments is dangerous" ∈ ar.1 := by
    unfold argsPartCmd at har
    rw [if_neg (by simp [hne])] at har
    rw [h1] at har
    simp only [Option.getD_some, pyInStr, Bind.bind, Except.bind] at har
    rw [h2'] at har
    simp only [if_true, h3, Except.ok.injEq] at har
    rw [← har]
    simp [List.mem_append]
  rw [hce]
  simp only [List.mem_append]
  exact Or.inr hmem

/-- Witness for claim C4: a command with `allowed-tools: Bash` and an
`eval $ARGUMENTS` body gets the critical security finding. -/
theorem claim_C4_eval_flag_requires_bash_witness :
    "SECURITY: Using eval with arguments is dangerous" ∈
      (ValReport.mk "errors"
        ["Has Bash access without input validation documentation",
         "SECURITY: Using eval with arguments is dangerous"]
        ["Uses arguments but missing argument-hint field"]
        ["Add an Arguments section to document parameters"]).critical_errors := by
  exact claim_C4_eval_flag_requires_bash "run-script"
    [("description", Value.str "runs a script for you"), ("allowed-tools", Value.str "Bash")]
    "eval $ARGUMENTS now" "Bash" rfl rfl (by decide) _ rfl

/-- Counterexample to claim C4 as stated: a command body containing a shell
code block with `eval $ARGUMENTS` but no `allowed-tools` field is validated
with no critical finding at all — the security scan is guarded by `Bash`
occurring in `allowed-tools`, so the flag is not independent of that field. -/
theorem claim_C4_counterexample :
    validate_command "run-script"
        (.success [("description", Value.str "runs a script for you")]
          "```bash\neval $ARGUMENTS\n```\n") =
      .ok ⟨"warnings", [],
        ["Uses arguments but missing argument-hint field"],
        ["Add an Arguments section to document parameters"]⟩ ∧
    hasEvalDollarCL ("```bash\neval $ARGUMENTS\n```\n").data = true :=
  ⟨rfl, rfl⟩

/-- Claim C5: the audit is meant to isolate the malformed file of a batch as
a single `parse_error` report (first conjunct), but the batch loop has no
exception handling — a sibling file whose frontmatter parses fine yet maps
`model` to an integer makes `validate_command` raise `AttributeError` at
`model.startswith`, aborting the whole audit (second conjunct). -/
theorem claim_C5_batch_crash :
    validate_command "deploy-all" (.failure "Missing YAML frontmatter") =
      .ok ⟨"parse_error", ["Missing YAML frontmatter"], [], []⟩ ∧
    audit_batch
        [("run-build", .success
            [("description", Value.str "runs the project build"),
             ("model", Value.int 5)] "Build the project."),
         ("deploy-all", .failure "Missing YAML frontmatter")] =
      .error (.attributeError "startswith") :=
  ⟨rfl, rfl⟩

/-- Claim C7 (amended): for a hook item whose type is neither `command` nor
`prompt`, the repair sets the type to `command` whenever the `command`
payload field is present — even if `prompt` is present as well — else to
`prompt` when `prompt` is present; only when neither payload field is
present is the item left unmodified with an unrepairable `ERROR` recorded. -/
theorem claim_C7_type_inference (ev : String) (i j : Nat) (it : HookItem)
    (h1 : it.type?.getD "" ≠ "command") (h2 : it.type?.getD "" ≠ "prompt") :
    (it.command?.isSome = true →
        fixHookItem ev i j it =
          ({ it with type? := some "command" }, [fixedCmdMsg ev i j])) ∧
    (it.command? = Option.none → it.prompt?.isSome = true →
        fixHookItem ev i j it =
          ({ it with type? := some "prompt" }, [fixedPromptMsg ev i j])) ∧
    (it.command? = Option.none → it.prompt? = Option.none →
        fixHookItem ev i j it = (it, [invalidTypeMsg ev i j (it.type?.getD "")])) := by
  have hA : decide (it.type?.getD "" = "command") = false := decide_eq_false h1
  have hB : decide (it.type?.getD "" = "prompt") = false := decide_eq_false h2
  refine ⟨?_, ?_, ?_⟩
  · intro hc
    unfold fixHookItem
    simp only [hA, hB, Bool.or_false, Bool.false_eq_true, if_false, hc, if_true,
      Bool.false_and, List.append_nil]
  · intro hcn hp
    unfold fixHookItem
    simp only [hA, hB, Bool.or_false, Bool.false_eq_true, if_false, hcn,
      Option.isSome_none, hp, if_true, Bool.false_and, List.append_nil]
  · intro hcn hpn
    unfold fixHookItem
    simp only [hA, hB, Bool.or_false, Bool.false_eq_true, if_false, hcn, hpn,
      Option.isSome_none, Bool.false_and, List.append_nil]

/-- Witness for claim C7: an item with an invalid type and both payload
fields present is repaired to type `command`. -/
theorem claim_C7_type_inference_witness :
    fixHookItem "PreToolUse" 0 0 ⟨some "bogus", some "echo hi", some "say hi"⟩ =
      (⟨some "command", some "echo hi", some "say hi"⟩,
       ["Fixed type to command for PreToolUse hook #1, item #1"]) := by
  have h := (claim_C7_type_inference "PreToolUse" 0 0
    ⟨some "bogus", some "echo hi", some "say hi"⟩ (by decide) (by decide)).1 rfl
  rw [h]
  rfl

/-- Counterexample to claim C7 as stated: when both payload fields are
present the migration does not leave the item unmodified with an error — it
rewrites the type to `command` and records a fix. -/
theorem claim_C7_counterexample :
    migrate_validate_hook_types
        (⟨some [("PreToolUse",
          [⟨some (Value.str "*"),
            some [⟨some "bogus", some "echo hi", some "say hi"⟩]⟩])]⟩ : HooksConfig) =
      (⟨some [("PreToolUse",
        [⟨some (Value.str "*"),
          some [⟨some "command", some "echo hi", some "say hi"⟩]⟩])]⟩,
       ["Fixed type to command for PreToolUse hook #1, item #1"]) ∧
    (some "command" : Option String) ≠ some "bogus" :=
  ⟨rfl, by decide⟩

theorem namePatOk_false_of_mem (ident : String) (c : Char) (hc : c ∈ ident.data)
    (hld : isLowerNumDash c = false) : namePatOk ident = false := by
  unfold namePatOk
  have hall : ident.data.all isLowerNumDash = false := by
    cases hA : ident.data.all isLowerNumDash with
    | false => rfl
    | true =>
        have := List.all_eq_true.mp hA c hc
        rw [hld] at this
        cases this
  rw [hall, Bool.and_false]

theorem upper_not_lowerNumDash (c : Char) (h1 : 65 ≤ c.toNat) (h2 : c.toNat ≤ 90) :
    isLowerNumDash c = false := by
  unfold isLowerNumDash
  have hA : decide (97 ≤ c.toNat) = false := decide_eq_false (by omega)
  have hB : decide (c.toNat ≤ 57) = false := decide_eq_false (by omega)
  have hC : decide (c = '-') = false := by
    apply decide_eq_false
    intro hcc
    subst hcc
    exact absurd h1 (by decide)
  rw [hA, hB, hC]
  simp

/-- Claim C8: an identity string (command filename stem or skill directory
name) containing an uppercase letter, a space, or an underscore always fails
the `^[a-z0-9-]+$` check, producing a critical naming finding in both the
command and the skill audit; and the command migration never rewrites the
identity — the migrated file keeps its stem. -/
theorem claim_C8_naming_invariant (ident : String)
    (hbad : (∃ c ∈ ident.data, 65 ≤ c.toNat ∧ c.toNat ≤ 90) ∨
      ' ' ∈ ident.data ∨ '_' ∈ ident.data) :
    (∀ fm body r, validate_command ident (.success fm body) = .ok r →
        "Invalid filename: must be lowercase-hyphens only" ∈ r.critical_errors) ∧
    (∀ (sd : SkillDir) fm body r, sd.name = ident → sd.parse = .success fm body →
        validate_skill sd = .ok r →
        "Invalid directory name: must be lowercase-hyphens only" ∈ r.critical_errors) ∧
    (∀ fm body, ((migrate_single_command ident fm body).1).1 = ident) := by
  have hpat : namePatOk ident = false := by
    rcases hbad with ⟨c, hc, hu1, hu2⟩ | h | h
    · exact namePatOk_false_of_mem ident c hc (upper_not_lowerNumDash c hu1 hu2)
    · exact namePatOk_false_of_mem ident ' ' h (by decide)
    · exact namePatOk_false_of_mem ident '_' h (by decide)
  refine ⟨?_, ?_, ?_⟩
  · intro fm body r hr
    obtain ⟨d, m, ar, _, _, _, hce⟩ := validate_command_ok_inv ident fm body r hr
    rw [hce]
    unfold namePartCmd
    rw [hpat]
    simp [List.mem_append]
  · intro sd fm body r hname hp hr
    obtain ⟨d, _, hce⟩ := validate_skill_ok_inv sd fm body r hp hr
    rw [hce, hname]
    unfold namePartSkill
    rw [hpat]
    simp [List.mem_append]
  · intro fm body
    rfl

/-- Witness for claim C8 at the identity `Bad_Name` (uppercase letters and
an underscore). -/
theorem claim_C8_naming_invariant_witness :
    "Invalid filename: must be lowercase-hyphens only" ∈
      (ValReport.mk "errors"
        ["Invalid filename: must be lowercase-hyphens only",
         "Underscores not allowed in filename",
         "Missing required description field"] []
        ["Consider verb-first naming"]).critical_errors ∧
    "Invalid directory name: must be lowercase-hyphens only" ∈
      (ValReport.mk "errors"
        ["Invalid directory name: must be lowercase-hyphens only",
         "Underscores not allowed in directory name",
         "Missing required name field",
         "Missing required description field"] []
        ["Consider gerund form for skill names"]).critical_errors ∧
    ((migrate_single_command "Bad_Name" [] "").1).1 = "Bad_Name" := by
  have h := claim_C8_naming_invariant "Bad_Name" (Or.inr (Or.inr (by decide)))
  exact ⟨h.1 [] "" _ rfl,
    h.2.1 ⟨"Bad_Name", .success [] "", false, false, false, [], []⟩ [] "" _ rfl rfl rfl,
    h.2.2 [] ""⟩

end PluginAutomations

